import Mathlib

/-!
Verification development for the view-driven resampling engine of
`plotly_resampler/figure_resampler.py` (class `FigureResampler`).

The Python source is shallowly embedded:

* pandas `Series` objects become lists of `(position, value)` pairs with the
  index positions modelled as rationals (`ℚ`): numeric keys directly, and
  timestamps by their wall-clock instant, with the timezone carried
  separately (as in a tz-aware `DatetimeIndex`).
* float values become `Flt` (an explicit NaN marker plus a rational payload);
  numpy dtypes that matter to the code (`uint8`/`uint16` widening, dtypes on
  which `np.isnan` raises) are carried as a `Dtype` tag.
* fallible statements (`assert`, `KeyError`-style failures, the bare
  `try/except` of `add_trace`) are modelled with `Except String`.
* the mutable trace/figure objects become explicit records that each
  operation maps to updated records.
-/

/-- Python strings, modelled as lists of characters so that the slicing
operations of the source (`name[len(p):]`, `name[:-len(s)]`) are literal. -/
abbrev Str := List Char

/-- `a.startswith(b)` on Python strings (here: `startsW pat s`). -/
def startsW : Str → Str → Bool
  | [], _ => true
  | _ :: _, [] => false
  | p :: ps, c :: cs => p == c && startsW ps cs

/-- `a.endswith(b)` on Python strings. -/
def endsW (pat s : Str) : Bool :=
  startsW pat.reverse s.reverse

/-- A floating-point value as the code observes it: either NaN or a real
number (modelled as a rational). -/
inductive Flt where
  | nan : Flt
  | val (q : ℚ) : Flt
deriving DecidableEq, Repr

/-- Whether `np.isnan` reports this value as NaN. -/
def isnanF : Flt → Bool
  | .nan => true
  | .val _ => false

/-- The numpy/pandas dtypes the source distinguishes: `uint8`/`uint16` get
widened to `uint32` for orjson, and `obj` stands for any dtype on which
`np.isnan` raises a `TypeError` (object, str, categorical, ...). -/
inductive Dtype where
  | float64 | uint8 | uint16 | uint32 | obj
deriving DecidableEq, Repr

/-- Dtypes on which `np.isnan` succeeds. -/
def supportsIsnan : Dtype → Bool
  | .obj => false
  | _ => true

/-- A hovertext-like payload as it flows through `add_trace` /
`check_update_trace_data`.  The source distinguishes Python lists, numpy
arrays and `pd.Series` via `isinstance`, so the embedding does too:
`pylist`/`arr` hold bare values, `ser` holds an index-aligned `pd.Series`. -/
inductive HTVal where
  | none
  | scalar (s : Str)
  | pylist (vs : List Str)
  | arr (vs : List Str)
  | ser (pts : List (ℚ × Str))
deriving DecidableEq, Repr

/-- Metadata of an index array: `dt` = `isinstance(·, pd.DatetimeIndex)`,
`tz` = its timezone (`None` for naive), `intIdx` = `isinstance(·,
(pd.Int64Index, pd.UInt64Index))`. -/
structure XMeta where
  dt : Bool
  tz : Option String
  intIdx : Bool
deriving DecidableEq, Repr

/-- An x/index array: metadata plus the positions (wall-clock instants for
datetime indexes, plain numbers otherwise). -/
structure XArr where
  meta : XMeta
  xs : List ℚ
deriving DecidableEq, Repr

/-- A y/value array: its dtype plus the values. -/
structure YArr where
  dtype : Dtype
  ys : List Flt
deriving DecidableEq, Repr

/-- y-axis reference of a trace: `none` models a trace without a `yaxis`
property, `some none` models `"y"`, `some (some k)` models `"y{k}"`. -/
abbrev YKey := Option ℕ

/-- x-axis key: `none` models `"x"` / `"xaxis"`, `some k` models `"x{k}"` /
`"xaxis{k}"`. -/
abbrev XKey := Option ℕ

/-- A rendered plotly trace: exactly the properties the source reads or
writes (`type`, `uid`, `name`, `x`, `y`, `text`, `hovertext`, `yaxis`). -/
structure Trace where
  type_ : String
  uid : Option String
  name : Option Str
  x : XArr
  y : YArr
  text : HTVal
  hovertext : HTVal
  yaxis : Option YKey
deriving DecidableEq, Repr

/-- The axis type stored in an `_hf_data` entry. -/
inductive AxisType where
  | date | linear
deriving DecidableEq, Repr

/-- A downsampler strategy: `reduce(series, budget) -> series`.  The
downsamplers module is a collaborator of the file under study; entries store
the strategy as an opaque pure function. -/
abbrev DS := List (ℚ × Flt) → ℕ → List (ℚ × Flt)

/-- One `_hf_data` entry (the dict built at `add_trace` line 472): the
budget, the high-frequency series (`points` plus its index metadata `meta`
and value dtype `ydtype`), the axis type, the downsampler, and the
hovertext payload. -/
structure HfData where
  max_n_samples : ℕ
  meta : XMeta
  ydtype : Dtype
  points : List (ℚ × Flt)
  axis_type : AxisType
  downsampler : DS
  hovertext : HTVal

/-- The `_hf_data` mapping `uid → entry`; dict assignment is modelled by
prepending (uids are fresh, so keys never collide). -/
abbrev Store := List (String × HfData)

/-- `_query_hf_data`: look the trace's `uid` up in `_hf_data`; a trace
without uid (or with an unknown uid) yields `None` (the source only prints
a diagnostic in that case). -/
def queryHfData (store : Store) (t : Trace) : Option HfData :=
  match t.uid with
  | some u => (store.lookup u)
  | none => none

/-! ## Timezone handling (`_slice_time`, lines 282-298) -/

/-- A slice bound: a timestamp's wall-clock instant plus its timezone
(`none` = naive).  For numeric-axis bounds only `wall` is meaningful. -/
structure Bnd where
  wall : ℚ
  tz : Option String
deriving DecidableEq, Repr

/-- `to_same_tz` (lines 282-296): adjust a bound's timezone to the series'
`reference_tz`.  `tz_localize` keeps the wall-clock time unchanged, and a
zone-aware bound whose zone differs from a zone-aware series hits the
`assert ts.tz.zone == reference_tz.zone`. -/
def toSameTz (referenceTz : Option String) (ts : Option Bnd) :
    Except String (Option Bnd) :=
  match ts with
  | none => .ok none
  | some t =>
    match referenceTz with
    | some rz =>
      match t.tz with
      | some z =>
        if z = rz then .ok (some t)
        else .error "TimezoneMismatch"
      | none => .ok (some { t with tz := some rz })
    | none =>
      match t.tz with
      | some _ => .ok (some { t with tz := none })
      | none => .ok (some t)

/-- `hf_series[a:b]` label slicing (line 298) on a monotonic
datetime-indexed series keeps the samples with `a ≤ position ≤ b`
(inclusive of both boundary matches), an absent bound imposing no
threshold. -/
def sliceTime {α : Type} (tz : Option String) (pts : List (ℚ × α))
    (t_start t_stop : Option Bnd) : Except String (List (ℚ × α)) := do
  let a ← toSameTz tz t_start
  let b ← toSameTz tz t_stop
  .ok (pts.filter fun p =>
    (a.all fun x => x.wall ≤ p.1) && (b.all fun x => p.1 ≤ x.wall))

/-! ## Numeric slicing (`check_update_trace_data`, lines 150-159) -/

/-- Rational subtraction written out on numerators/denominators; the
library's subtraction is `@[irreducible]`, which would block evaluation of
the definitions below inside `decide`/`rfl` proofs.  `subQ_eq` shows it is
ordinary subtraction. -/
def subQ (a b : ℚ) : ℚ :=
  Rat.divInt (a.num * (b.den : ℤ) - b.num * (a.den : ℤ))
    ((a.den : ℤ) * (b.den : ℤ))

/-- Python's built-in `round`: round half to even. -/
def roundHalfEven (q : ℚ) : ℤ :=
  let f := q.floor
  let r := subQ q (Rat.divInt f 1)
  if r < Rat.divInt 1 2 then f
  else if Rat.divInt 1 2 < r then f + 1
  else if f % 2 = 0 then f else f + 1

/-- `np.searchsorted(keys, x)` with the default `side='left'` on a sorted
array: the number of entries strictly below `x`. -/
def ssLeft (keys : List ℚ) (x : ℚ) : ℕ :=
  keys.countP fun k => decide (k < x)

/-- The numeric branch of `check_update_trace_data` (lines 150-159):
`start`/`end` default to the first/last index position, are rounded (half to
even) when the index is an `Int64Index`/`UInt64Index`, and the series is cut
to `iloc[searchsorted(start) : searchsorted(end)]`.  (The stored series is
never empty, so the `headD`/`getLastD` defaults are never exercised.) -/
def sliceNum {α : Type} (intIdx : Bool) (pts : List (ℚ × α))
    (start end_ : Option ℚ) : List (ℚ × α) :=
  let keys := pts.map Prod.fst
  let s0 := start.getD (keys.headD 0)
  let e0 := end_.getD (keys.getLastD 0)
  let s := if intIdx then (roundHalfEven s0 : ℚ) else s0
  let e := if intIdx then (roundHalfEven e0 : ℚ) else e0
  let i := ssLeft keys s
  let j := ssLeft keys e
  (pts.drop i).take (j - i)

/-- The slice step of `check_update_trace_data` (lines 144-159), dispatching
on the entry's `axis_type`. -/
def sliceOf (hf : HfData) (start end_ : Option Bnd) :
    Except String (List (ℚ × Flt)) :=
  if hf.axis_type = .date then
    sliceTime hf.meta.tz hf.points start end_
  else
    .ok (sliceNum hf.meta.intIdx hf.points (start.map Bnd.wall)
      (end_.map Bnd.wall))

/-! ## Name decoration (`check_update_trace_data`, lines 161-171) -/

/-- Lines 164-165: prepend the configured `pre`(fix) unless already present,
then append the `suf`(fix) unless already present. -/
def decorName (pre suf n : Str) : Str :=
  let n1 := (if startsW pre n then [] else pre) ++ n
  n1 ++ (if endsW suf n1 then [] else suf)

/-- Lines 168-171: the two strip `if`s both test and slice the *original*
`name` local; when both fire, the second assignment overwrites the first,
so the final value drops only the suffix. -/
def stripName (pre suf n : Str) : Str :=
  if 0 < suf.length ∧ endsW suf n then n.take (n.length - suf.length)
  else if 0 < pre.length ∧ startsW pre n then n.drop pre.length
  else n

/-! ## Hovertext realignment (`check_update_trace_data`, lines 182-192) -/

/-- `pd.merge_asof` backward candidate: the last entry with key `≤ k`. -/
def lastLE (pts : List (ℚ × Str)) (k : ℚ) : Option (ℚ × Str) :=
  (pts.filter fun p => decide (p.1 ≤ k)).getLast?

/-- `pd.merge_asof` forward candidate: the first entry with key `≥ k`. -/
def firstGE (pts : List (ℚ × Str)) (k : ℚ) : Option (ℚ × Str) :=
  (pts.filter fun p => decide (k ≤ p.1)).head?

/-- `pd.merge_asof(..., direction="nearest")` for one left key: the nearer
of the backward/forward candidates, ties going backward. -/
def asofNearest (pts : List (ℚ × Str)) (k : ℚ) : Option Str :=
  match lastLE pts k, firstGE pts k with
  | some b, some f => if subQ k b.1 ≤ subQ f.1 k then some b.2 else some f.2
  | some b, none => some b.2
  | none, some f => some f.2
  | none, none => none

/-- Lines 184-190: realign the hovertext series to the reduced series'
index positions by a nearest-match join.  (With an empty right side pandas
would fill NaN; stored hovertext series are never empty.) -/
def mergeAsofNearest (s_res : List (ℚ × Flt)) (pts : List (ℚ × Str)) :
    List Str :=
  s_res.map fun p => (asofNearest pts p.1).getD []

/-! ## `check_update_trace_data` (lines 108-194) -/

/-- Lines 161-171: set the decorated name when the sliced series exceeds
the budget (`aggregated`), otherwise run the two strip `if`s — both of
which read (and slice) the stale `name` local, so when both fire the
second assignment overwrites the first. -/
def applyDecor (pre suf : Str) (aggregated : Bool) (t : Trace) (name : Str) :
    Trace :=
  if aggregated then
    { t with name := some (decorName pre suf name) }
  else
    let t1 :=
      if 0 < pre.length ∧ startsW pre name then
        { t with name := some (name.drop pre.length) }
      else t
    if 0 < suf.length ∧ endsW suf name then
      { t1 with name := some (name.take (name.length - suf.length)) }
    else t1

/-- Lines 161-192 for a found entry and an already-computed slice: toggle
the decoration, downsample, and write x/y/hovertext back into the trace. -/
def syncCore (pre suf : Str) (hf : HfData) (t : Trace) (name : Str)
    (hf_series : List (ℚ × Flt)) : Trace :=
  let t := applyDecor pre suf (hf_series.length > hf.max_n_samples) t name
  let s_res := hf.downsampler hf_series hf.max_n_samples
  let t := { t with x := ⟨hf.meta, s_res.map Prod.fst⟩,
                    y := ⟨hf.ydtype, s_res.map Prod.snd⟩ }
  match hf.hovertext with
  | .ser pts => { t with hovertext := .arr (mergeAsofNearest s_res pts) }
  | ht => { t with hovertext := ht }

/-- `check_update_trace_data(trace, start, end)`: look up the entry, slice,
toggle the name decoration against `max_n_samples`, downsample, and write
x/y/hovertext back into the trace.  Mutation of the passed trace is
modelled by returning the updated record; exceptions (the timezone assert,
and the `AttributeError` the source would raise when decorating an unnamed
trace — impossible for traces that went through `add_trace`) surface as
`.error`. -/
def checkUpdateTraceData (pre suf : Str) (store : Store) (t : Trace)
    (start end_ : Option Bnd) : Except String Trace :=
  match queryHfData store t with
  | none => .ok t
  | some hf => do
    let hf_series ← sliceOf hf start end_
    -- `name: str = trace["name"]`; the decoration code calls
    -- `name.startswith`/`name.endswith` on it, which raises on `None`.
    let name ←
      match t.name with
      | some n => Except.ok n
      | none =>
        if hf_series.length > hf.max_n_samples ∨ 0 < pre.length ∨
            0 < suf.length then
          Except.error "AttributeError: NoneType has no startswith"
        else Except.ok []
    .ok (syncCore pre suf hf t name hf_series)

/-! ## `add_trace` (lines 300-499) -/

/-- Boolean mask selection `a[mask]` for equal lengths. -/
def applyMask {α : Type} (l : List α) (mask : List Bool) : List α :=
  ((l.zip mask).filter fun p => p.2).map Prod.fst

/-- `a[mask]` on a numpy array/index: raises `IndexError` when the boolean
mask's length differs. -/
def maskArr {α : Type} (l : List α) (mask : List Bool) :
    Except String (List α) :=
  if l.length = mask.length then .ok (applyMask l mask)
  else .error "IndexError: boolean index length mismatch"

/-- `np.isnan(hf_y)`: elementwise NaN test, raising `TypeError` on dtypes
without isnan support (object/str/categorical ...). -/
def npIsnan (y : YArr) : Except String (List Bool) :=
  if supportsIsnan y.dtype then .ok (y.ys.map isnanF)
  else .error "TypeError: isnan not supported"

/-- Line 429: `np.array(hf_hovertext)[nan_values_mask]` for list/ndarray/
`pd.Series` payloads (a `pd.Series` loses its index through `np.array`);
other payloads are left untouched. -/
def maskHt (ht : HTVal) (mask : List Bool) : Except String HTVal :=
  match ht with
  | .pylist vs => (maskArr vs mask).map .arr
  | .arr vs => (maskArr vs mask).map .arr
  | .ser pts => (maskArr (pts.map Prod.snd) mask).map .arr
  | h => .ok h

/-- The bare `try/except` NaN-removal block (lines 418-431).  Python keeps
the assignments already made when a later statement raises, and the bare
`except: pass` swallows every exception, so the block always produces a
(possibly partially updated) state:
1. `np.isnan(hf_y)` raises → nothing is changed;
2. `hf_x[mask]` raises (x/y length mismatch) → nothing is changed;
3. `hf_y[mask]` cannot raise (the mask has `len(hf_y)`); `uint8`/`uint16`
   values are widened to `uint32`;
4. masking the hovertext raises (length mismatch) → x/y keep their masked
   values, the hovertext keeps its old one. -/
def nanBlock (x : XArr) (y : YArr) (ht : HTVal) : XArr × YArr × HTVal :=
  match npIsnan y with
  | .error _ => (x, y, ht)
  | .ok nm =>
    let mask := nm.map (!·)
    match maskArr x.xs mask with
    | .error _ => (x, y, ht)
    | .ok xs1 =>
      let x1 : XArr := { x with xs := xs1 }
      let dt1 := if y.dtype = .uint8 ∨ y.dtype = .uint16 then Dtype.uint32
                 else y.dtype
      let y1 : YArr := { dtype := dt1, ys := applyMask y.ys mask }
      match maskHt ht mask with
      | .error _ => (x1, y1, ht)
      | .ok ht1 => (x1, y1, ht1)

/-- Lines 439-442: an ndarray hovertext becomes a `pd.Series` indexed by
`hf_x`; the constructor raises `ValueError` on a length mismatch (see the
source's note). -/
def htToSeries (xs : List ℚ) (ht : HTVal) : Except String HTVal :=
  match ht with
  | .arr vs =>
    if vs.length = xs.length then .ok (.ser (xs.zip vs))
    else .error "ValueError: hovertext length mismatch"
  | h => .ok h

/-- Lines 392-408: resolve the data sources — explicit `hf_x`/`hf_y` take
precedence over the trace's own data, and the hovertext falls back to
`trace["hovertext"]` then `trace["text"]`.  (A `pd.Series`-valued `hf_x` or
`hf_y` is replaced by its `.values`; positions and values are unchanged by
that, so the embedding takes the arrays directly.) -/
def mergedInputs (t : Trace) (hf_x : Option XArr) (hf_y : Option YArr)
    (hf_ht : Option HTVal) : XArr × YArr × HTVal :=
  (hf_x.getD t.x, hf_y.getD t.y,
    match hf_ht with
    | some h => h
    | none => match t.hovertext with
      | .none => t.text
      | h => h)

/-- `pd.Series.is_monotonic_increasing`: weakly increasing positions. -/
def monotoneQ : List ℚ → Bool
  | [] => true
  | [_] => true
  | a :: b :: rest => decide (a ≤ b) && monotoneQ (b :: rest)

/-- Line 465: the default display name `f"trace {len(self.data)}"`. -/
def defaultName (n : ℕ) : Str :=
  ("trace " ++ toString n).toList

/-- The trace kinds held to be high-frequency-eligible (line 390). -/
def highFrequencyTraces : List String := ["scatter", "scattergl"]

/-- `str.lower()` (`String.toLower` iterates over byte positions and does
not reduce definitionally, so map over the character list instead). -/
def pyLower (s : String) : String := ⟨s.data.map Char.toLower⟩

/-- The `FigureResampler` state: the decoration prefix/suffix, the global
budget and downsampler defaults, the `_hf_data` store, and the figure's
trace list. -/
structure FR where
  pre : Str
  suf : Str
  globalMax : ℕ
  globalDs : DS
  store : Store
  traces : List Trace

/-- `add_trace(trace, max_n_samples, downsampler, limit_to_view, hf_x,
hf_y, hf_hovertext)` (lines 300-499).  `freshUid` stands for the
`str(uuid4())` assigned at line 388.  Assertion failures and constructor
errors surface as `.error`; on success the figure gains one trace (and, in
the stored case, one `_hf_data` entry). -/
def addTrace (fr : FR) (trace0 : Trace) (max_n_samples : Option ℕ)
    (downsampler : Option DS) (limit_to_view : Bool) (hf_x : Option XArr)
    (hf_y : Option YArr) (hf_hovertext : Option HTVal) (freshUid : String) :
    Except String FR :=
  let maxN := max_n_samples.getD fr.globalMax
  let trace : Trace := { trace0 with uid := some freshUid }
  if pyLower trace.type_ ∈ highFrequencyTraces then
    let m := mergedInputs trace hf_x hf_y hf_hovertext
    -- line 413: `trace["text"] = None`
    let trace := { trace with text := HTVal.none }
    let x1 := m.1
    let y1 := m.2.1
    let r := nanBlock x1 y1 m.2.2
    let x2 := r.1
    let y2 := r.2.1
    if x2.xs.length = 0 then
      .error "AssertionError: len(hf_x) > 0"
    else if x2.xs.length ≠ y2.ys.length then
      .error "AssertionError: len(hf_x) == len(hf_y)"
    else
      (htToSeries x2.xs r.2.2).bind fun ht2 =>
      let n_samples := x2.xs.length
      if n_samples > maxN ∨ limit_to_view then
        -- hf_series = pd.Series(data=hf_y, index=hf_x)
        let pts := x2.xs.zip y2.ys
        if monotoneQ x2.xs then
          let trace :=
            if trace.name = none then
              { trace with name := some (defaultName fr.traces.length) }
            else trace
          let entry : HfData :=
            { max_n_samples := maxN, meta := x2.meta, ydtype := y2.dtype,
              points := pts,
              axis_type := if x2.meta.dt then .date else .linear,
              downsampler := downsampler.getD fr.globalDs,
              hovertext := ht2 }
          let store' := (freshUid, entry) :: fr.store
          (checkUpdateTraceData fr.pre fr.suf store' trace none none).map
            fun t' => { fr with store := store',
                                traces := fr.traces ++ [t'] }
        else .error "AssertionError: index.is_monotonic_increasing"
      else
        -- lines 486-490: render the raw (NaN-stripped) data, no entry
        let trace := { trace with x := x2, y := y2, text := ht2 }
        .ok { fr with traces := fr.traces ++ [trace] }
  else
    -- lines 491-499: not high-frequency-eligible; merge hf_x/hf_y only.
    -- (The second source assert compares an array elementwise with an int,
    -- so it degenerates to `len(trace["x"]) > 0` — the length-mismatch
    -- check is vacuous.)
    let trace := { trace with x := hf_x.getD trace.x, y := hf_y.getD trace.y }
    if trace.x.xs.length = 0 then
      .error "AssertionError: len(trace.x) > 0"
    else .ok { fr with traces := fr.traces ++ [trace] }

/-! ## `check_update_figure_dict` (lines 196-251) -/

/-- The figure's layout as the source reads it: for each y-axis key the
`anchor` property of `figure["layout"]["yaxis…"]` (`none` = the axis dict
has no anchor property, `some k` = anchor `"x…"`).  (A y-axis key whose
axis dict is missing altogether would raise `KeyError`; rendered figures
always carry the axis dicts of their traces.) -/
abbrev Layout := YKey → Option XKey

/-- The skip test of lines 230-250 for one trace, given the short filter
`xaxis_filter_short` (`"x"`/`"x{k}"`, obtained by stripping the characters
of `"xaxis_filter"` from the left of the filter string — which leaves
exactly the digits).  A trace without a `yaxis` property is assumed to sit
on the filter's own subplot (`y_axis = "y" + xaxis_filter[1:]`). -/
def skipTrace (layout : Layout) (filt : XKey) (t : Trace) : Bool :=
  let yk : YKey := t.yaxis.getD filt
  let anchor := layout yk
  match filt with
  | none => decide ¬(anchor = none ∨ anchor = some none)
  | some k => decide (anchor ≠ some (some k))

/-- The `for trace in figure["data"]` loop, success case: each trace is
either skipped or updated in place. -/
def updateTraces (f : Trace → Except String Trace) :
    List Trace → Except String (List Trace)
  | [] => .ok []
  | t :: ts => do
    let t' ← f t
    let ts' ← updateTraces f ts
    .ok (t' :: ts')

/-- `check_update_figure_dict(figure, start, stop, xaxis_filter)`: apply
the per-trace synchronizer to every trace not excluded by the axis filter. -/
def checkUpdateFigureDict (pre suf : Str) (store : Store) (layout : Layout)
    (data : List Trace) (start stop : Option Bnd)
    (xaxis_filter : Option XKey) : Except String (List Trace) :=
  updateTraces
    (fun t =>
      match xaxis_filter with
      | none => checkUpdateTraceData pre suf store t start stop
      | some f =>
        if skipTrace layout f t then .ok t
        else checkUpdateTraceData pre suf store t start stop)
    data

/-! ## Helper lemmas -/

deriving instance DecidableEq for Except

theorem startsW_self_append (p r : Str) : startsW p (p ++ r) = true := by
  induction p with
  | nil => rfl
  | cons c cs ih => simp [startsW, ih]

theorem startsW_append_right (b : Str) :
    ∀ {p a : Str}, startsW p a = true → startsW p (a ++ b) = true := by
  intro p
  induction p with
  | nil => intro a _; rfl
  | cons c cs ih =>
    intro a h
    cases a with
    | nil => simp [startsW] at h
    | cons d ds =>
      simp only [startsW, Bool.and_eq_true] at h
      simp only [List.cons_append, startsW, Bool.and_eq_true]
      exact ⟨h.1, ih h.2⟩

theorem endsW_append_self (s x : Str) : endsW s (x ++ s) = true := by
  simp only [endsW, List.reverse_append]
  exact startsW_self_append s.reverse x.reverse

/-- A decorated name starts with the configured decoration prefix. -/
theorem decorName_startsW (pre suf n : Str) :
    startsW pre (decorName pre suf n) = true := by
  simp only [decorName]
  by_cases h : startsW pre n
  · simp only [h, if_true, List.nil_append]
    exact startsW_append_right _ h
  · simp only [h, if_false, List.append_assoc]
    exact startsW_self_append pre _

/-- A decorated name ends with the configured decoration suffix. -/
theorem decorName_endsW (pre suf n : Str) :
    endsW suf (decorName pre suf n) = true := by
  simp only [decorName]
  by_cases h : endsW suf ((if startsW pre n then ([] : Str) else pre) ++ n)
  · simp only [h, if_true, List.append_nil]
  · simp only [h, if_false, List.append_assoc]
    rw [← List.append_assoc]
    exact endsW_append_self suf _

/-- Decorating a name already carrying prefix and suffix changes nothing. -/
theorem decorName_of_both {pre suf n : Str} (h1 : startsW pre n = true)
    (h2 : endsW suf n = true) : decorName pre suf n = n := by
  simp [decorName, h1, h2]

/-- Applying the decoration twice is the same as applying it once. -/
theorem decorName_idem (pre suf n : Str) :
    decorName pre suf (decorName pre suf n) = decorName pre suf n :=
  decorName_of_both (decorName_startsW pre suf n) (decorName_endsW pre suf n)

/-- The two strip `if`s collapse to `stripName` on the name value. -/
theorem applyDecor_eq (pre suf : Str) (ag : Bool) (t : Trace) (n : Str)
    (h : t.name = some n) :
    applyDecor pre suf ag t n =
      { t with name := some (if ag then decorName pre suf n
                             else stripName pre suf n) } := by
  cases ag with
  | true => simp [applyDecor]
  | false =>
    simp only [applyDecor, stripName, Bool.false_eq_true, if_false]
    by_cases hs : 0 < suf.length ∧ endsW suf n
    · by_cases hp : 0 < pre.length ∧ startsW pre n <;> simp [hs, hp]
    · by_cases hp : 0 < pre.length ∧ startsW pre n
      · simp [hs, hp]
      · simp [hs, hp, ← h]

theorem syncCore_eq (pre suf : Str) (hf : HfData) (t : Trace) (n : Str)
    (hs : List (ℚ × Flt)) (h : t.name = some n) :
    syncCore pre suf hf t n hs =
      let nm := if hs.length > hf.max_n_samples then decorName pre suf n
                else stripName pre suf n
      let s_res := hf.downsampler hs hf.max_n_samples
      { t with name := some nm,
               x := ⟨hf.meta, s_res.map Prod.fst⟩,
               y := ⟨hf.ydtype, s_res.map Prod.snd⟩,
               hovertext :=
                 match hf.hovertext with
                 | .ser pts => .arr (mergeAsofNearest s_res pts)
                 | ht => ht } := by
  simp only [syncCore, applyDecor_eq pre suf _ t n h]
  split <;> simp

theorem applyDecor_uid (pre suf : Str) (ag : Bool) (t : Trace) (n : Str) :
    (applyDecor pre suf ag t n).uid = t.uid := by
  simp only [applyDecor]
  split
  · rfl
  · split <;> split <;> rfl

theorem applyDecor_type (pre suf : Str) (ag : Bool) (t : Trace) (n : Str) :
    (applyDecor pre suf ag t n).type_ = t.type_ := by
  simp only [applyDecor]
  split
  · rfl
  · split <;> split <;> rfl

theorem applyDecor_text (pre suf : Str) (ag : Bool) (t : Trace) (n : Str) :
    (applyDecor pre suf ag t n).text = t.text := by
  simp only [applyDecor]
  split
  · rfl
  · split <;> split <;> rfl

theorem applyDecor_yaxis (pre suf : Str) (ag : Bool) (t : Trace) (n : Str) :
    (applyDecor pre suf ag t n).yaxis = t.yaxis := by
  simp only [applyDecor]
  split
  · rfl
  · split <;> split <;> rfl

theorem syncCore_uid (pre suf : Str) (hf : HfData) (t : Trace) (n : Str)
    (hs : List (ℚ × Flt)) : (syncCore pre suf hf t n hs).uid = t.uid := by
  simp only [syncCore]
  split <;> simp [applyDecor_uid]

theorem syncCore_type (pre suf : Str) (hf : HfData) (t : Trace) (n : Str)
    (hs : List (ℚ × Flt)) : (syncCore pre suf hf t n hs).type_ = t.type_ := by
  simp only [syncCore]
  split <;> simp [applyDecor_type]

theorem syncCore_text (pre suf : Str) (hf : HfData) (t : Trace) (n : Str)
    (hs : List (ℚ × Flt)) : (syncCore pre suf hf t n hs).text = t.text := by
  simp only [syncCore]
  split <;> simp [applyDecor_text]

theorem syncCore_yaxis (pre suf : Str) (hf : HfData) (t : Trace) (n : Str)
    (hs : List (ℚ × Flt)) : (syncCore pre suf hf t n hs).yaxis = t.yaxis := by
  simp only [syncCore]
  split <;> simp [applyDecor_yaxis]

theorem syncCore_x (pre suf : Str) (hf : HfData) (t : Trace) (n : Str)
    (hs : List (ℚ × Flt)) :
    (syncCore pre suf hf t n hs).x =
      ⟨hf.meta, (hf.downsampler hs hf.max_n_samples).map Prod.fst⟩ := by
  simp only [syncCore]
  split <;> rfl

theorem syncCore_y (pre suf : Str) (hf : HfData) (t : Trace) (n : Str)
    (hs : List (ℚ × Flt)) :
    (syncCore pre suf hf t n hs).y =
      ⟨hf.ydtype, (hf.downsampler hs hf.max_n_samples).map Prod.snd⟩ := by
  simp only [syncCore]
  split <;> rfl

theorem syncCore_hovertext_ser (pre suf : Str) (hf : HfData) (t : Trace)
    (n : Str) (hs : List (ℚ × Flt)) (pts : List (ℚ × Str))
    (h : hf.hovertext = .ser pts) :
    (syncCore pre suf hf t n hs).hovertext =
      .arr (mergeAsofNearest (hf.downsampler hs hf.max_n_samples) pts) := by
  simp only [syncCore, h]

theorem syncCore_hovertext_nonser (pre suf : Str) (hf : HfData) (t : Trace)
    (n : Str) (hs : List (ℚ × Flt))
    (h : ∀ pts, hf.hovertext ≠ .ser pts) :
    (syncCore pre suf hf t n hs).hovertext = hf.hovertext := by
  cases hh : hf.hovertext with
  | ser pts => exact absurd hh (h pts)
  | none => simp [syncCore, hh]
  | scalar s => simp [syncCore, hh]
  | pylist vs => simp [syncCore, hh]
  | arr vs => simp [syncCore, hh]

theorem syncCore_name (pre suf : Str) (hf : HfData) (t : Trace) (n : Str)
    (hs : List (ℚ × Flt)) (h : t.name = some n) :
    (syncCore pre suf hf t n hs).name =
      some (if hs.length > hf.max_n_samples then decorName pre suf n
            else stripName pre suf n) := by
  rw [syncCore_eq pre suf hf t n hs h]

theorem subQ_eq (a b : ℚ) : subQ a b = a - b := by
  unfold subQ
  rw [Rat.divInt_eq_div]
  push_cast
  conv_rhs => rw [← Rat.num_div_den a, ← Rat.num_div_den b]
  have ha : ((a.den : ℚ)) ≠ 0 := by positivity
  have hb : ((b.den : ℚ)) ≠ 0 := by positivity
  field_simp
  ring

theorem exceptOkBind {ε α β : Type} (a : α) (f : α → Except ε β) :
    Except.ok a >>= f = f a := rfl

theorem exceptErrBind {ε α β : Type} (e : ε) (f : α → Except ε β) :
    (Except.error e : Except ε α) >>= f = Except.error e := rfl

/-- `check_update_trace_data` is the identity on a trace without an entry. -/
theorem checkUpdate_no_entry (pre suf : Str) (store : Store) (t : Trace)
    (s e : Option Bnd) (h : queryHfData store t = none) :
    checkUpdateTraceData pre suf store t s e = .ok t := by
  simp [checkUpdateTraceData, h]

/-- Successful run of `check_update_trace_data` on a named trace with an
entry. -/
theorem checkUpdate_some (pre suf : Str) (store : Store) (t : Trace)
    (s e : Option Bnd) (hf : HfData) (n : Str) (hs : List (ℚ × Flt))
    (hq : queryHfData store t = some hf) (hn : t.name = some n)
    (hsl : sliceOf hf s e = .ok hs) :
    checkUpdateTraceData pre suf store t s e =
      .ok (syncCore pre suf hf t n hs) := by
  simp [checkUpdateTraceData, hq, hsl, hn, exceptOkBind]

/-- Inversion of a successful `check_update_trace_data` run. -/
theorem checkUpdate_inv {pre suf : Str} {store : Store} {t : Trace}
    {s e : Option Bnd} {t' : Trace}
    (h : checkUpdateTraceData pre suf store t s e = .ok t') :
    (queryHfData store t = none ∧ t' = t) ∨
    ∃ hf hs nm, queryHfData store t = some hf ∧ sliceOf hf s e = .ok hs ∧
      (t.name = some nm ∨
        (t.name = none ∧ nm = [] ∧
          ¬(hs.length > hf.max_n_samples ∨ 0 < pre.length ∨
            0 < suf.length))) ∧
      t' = syncCore pre suf hf t nm hs := by
  rcases hq : queryHfData store t with _ | hf
  · rw [checkUpdate_no_entry pre suf store t s e hq] at h
    exact Or.inl ⟨rfl, (Except.ok.injEq _ _).mp h |>.symm⟩
  · unfold checkUpdateTraceData at h
    rw [hq] at h
    simp only at h
    rcases hsl : sliceOf hf s e with err | hs
    · rw [hsl] at h
      simp [exceptErrBind] at h
    · rw [hsl] at h
      rcases hn : t.name with _ | nm
      · rw [hn] at h
        by_cases hg : hs.length > hf.max_n_samples ∨ 0 < pre.length ∨
            0 < suf.length
        · simp [exceptOkBind, exceptErrBind, hg] at h
        · simp [exceptOkBind, hg] at h
          exact Or.inr ⟨hf, hs, [], rfl, hsl, Or.inr ⟨rfl, rfl, hg⟩, h.symm⟩
      · rw [hn] at h
        simp [exceptOkBind] at h
        exact Or.inr ⟨hf, hs, nm, rfl, hsl, Or.inl rfl, h.symm⟩

/-! ## Concrete fixtures -/

/-- Identity reduction strategy (used as a concrete downsampler). -/
def dsIdentity : DS := fun s _ => s

/-- Metadata of a plain integer index (`pd.Int64Index`). -/
def linMeta : XMeta := ⟨false, none, true⟩

/-- A linear-axis `_hf_data` entry with identity downsampler, no hovertext. -/
def mkLinEntry (pts : List (ℚ × Flt)) (maxN : ℕ) : HfData :=
  { max_n_samples := maxN, meta := linMeta, ydtype := .float64, points := pts,
    axis_type := .linear, downsampler := dsIdentity, hovertext := .none }

/-- An empty `FigureResampler` with no decoration and budget 1000. -/
def frFix : FR :=
  { pre := [], suf := [], globalMax := 1000, globalDs := dsIdentity,
    store := [], traces := [] }

/-- An empty scatter trace used as `add_trace` input. -/
def trInFix : Trace :=
  { type_ := "scatter", uid := none, name := some ['s'],
    x := ⟨linMeta, []⟩, y := ⟨.float64, []⟩, text := .none,
    hovertext := .none, yaxis := none }

/-- An empty bar trace (not high-frequency-eligible). -/
def barTr : Trace :=
  { type_ := "bar", uid := none, name := some ['b'],
    x := ⟨linMeta, []⟩, y := ⟨.float64, []⟩, text := .none,
    hovertext := .none, yaxis := none }

/-! ## C1 -/

/-- C1: with a nonempty configured prefix *and* suffix, syncing an
under-budget view of a decorated trace is supposed to strip the whole
decoration, but the second strip `if` reads the stale `name` local and
overwrites the first one's assignment: the name `"P-a-S"` becomes `"P-a"` —
the suffix is stripped but the prefix is retained, so the trace still
carries decoration although the sliced length (here `0 ≤ 5`) does not
exceed the budget.  This contradicts the claimed if-and-only-if decoration
toggling; the evident intent of the `else` branch (and the spec) is to
remove both parts. -/
theorem decoration_strip_retains_pre_bug :
    (checkUpdateTraceData ['P', '-'] ['-', 'S']
        [("u", mkLinEntry [((0 : ℚ), Flt.val 1)] 5)]
        { type_ := "scatter", uid := some "u",
          name := some ['P', '-', 'a', '-', 'S'],
          x := ⟨linMeta, []⟩, y := ⟨.float64, []⟩, text := .none,
          hovertext := .none, yaxis := none } none none).map Trace.name
      = .ok (some ['P', '-', 'a']) := by decide

/-! ## C3 -/

/-- C3: temporal-axis slicing normalizes bound timezones to the series'
own zone: (1)-(2) a naive bound against a zone-aware series is localized —
same wall-clock instant, zone attached — and slicing with it equals slicing
with the matching-zone bound; (3)-(4) a zone-aware bound against a naive
series has its zone dropped (wall clock kept); (5)-(6) a zone-aware bound
in a different zone than the zone-aware series makes the slice fail
(`TimezoneMismatch`, the source's `assert ts.tz.zone == reference_tz.zone`)
rather than silently converting, whether it is the start or the stop
bound. -/
theorem slice_time_timezone_normalization {α : Type} (z z' : String)
    (w : ℚ) (pts : List (ℚ × α)) (b : Option Bnd) :
    (toSameTz (some z) (some ⟨w, none⟩) = .ok (some ⟨w, some z⟩)) ∧
    (sliceTime (some z) pts (some ⟨w, none⟩) b =
      sliceTime (some z) pts (some ⟨w, some z⟩) b) ∧
    (toSameTz none (some ⟨w, some z'⟩) = .ok (some ⟨w, none⟩)) ∧
    (sliceTime none pts (some ⟨w, some z'⟩) b =
      sliceTime none pts (some ⟨w, none⟩) b) ∧
    (z' ≠ z →
      sliceTime (some z) pts (some ⟨w, some z'⟩) b =
        .error "TimezoneMismatch") ∧
    (z' ≠ z →
      sliceTime (some z) pts none (some ⟨w, some z'⟩) =
        .error "TimezoneMismatch") := by
  refine ⟨rfl, ?_, rfl, ?_, ?_, ?_⟩
  · simp [sliceTime, toSameTz]
  · simp [sliceTime, toSameTz]
  · intro h
    simp [sliceTime, toSameTz, h, exceptErrBind]
  · intro h
    simp [sliceTime, toSameTz, h, exceptOkBind, exceptErrBind]

theorem slice_time_timezone_normalization_witness :
    ("CET" : String) ≠ "UTC" ∧
    sliceTime (some "UTC") [((0 : ℚ), Flt.val 1)] (some ⟨0, some "CET"⟩)
      none = .error "TimezoneMismatch" :=
  ⟨by decide,
    (slice_time_timezone_normalization "UTC" "CET" 0
      [((0 : ℚ), Flt.val 1)] none).2.2.2.2.1 (by decide)⟩

/-! ## Counterexample halves of corrected claims -/

/-- C4 counterexample: on a numeric axis the slice is *not* inclusive of
the end boundary: slicing `[0,1,2]` with `start=0`, `end=2` drops the
sample at position `2`, although that sample is in the series and the
claim requires a sample whose position equals `end` to be included. -/
theorem slice_num_end_exclusive_cex :
    sliceNum false
        [((0 : ℚ), Flt.val 10), (1, Flt.val 11), (2, Flt.val 12)]
        (some 0) (some 2)
      = [((0 : ℚ), Flt.val 10), (1, Flt.val 11)] ∧
    ((2 : ℚ), Flt.val 12) ∈
      [((0 : ℚ), Flt.val 10), (1, Flt.val 11), (2, Flt.val 12)] := by
  constructor
  · decide
  · decide

/-- C5 counterexample: admitting values `[1, NaN, 3]` with an *object*
dtype (on which `np.isnan` raises) stores the series with the NaN pair
retained — the stored HFEntry series is not the non-NaN pairs. -/
theorem nan_retained_object_dtype_cex :
    (addTrace frFix trInFix none none true (some ⟨linMeta, [0, 1, 2]⟩)
        (some ⟨.obj, [Flt.val 1, Flt.nan, Flt.val 3]⟩) none "u").map
        (fun fr => fr.store.head?.map fun p => p.2.points)
      = .ok (some [((0 : ℚ), Flt.val 1), (1, Flt.nan), (2, Flt.val 3)]) := by
  decide

/-- C6 counterexample: a non-monotone series that stays under the budget
with `limit_to_view=False` is passed through without any failure (and
without an entry): admission does *not* fail on non-monotone positions in
this case, contradicting the claim that it always fails. -/
theorem nonmonotone_underbudget_passthrough_cex :
    (addTrace frFix trInFix none none false (some ⟨linMeta, [1, 0]⟩)
        (some ⟨.float64, [Flt.val 1, Flt.val 2]⟩) none "u").map
        (fun fr => (fr.store.length, fr.traces.map Trace.x))
      = .ok (0, [⟨linMeta, [1, 0]⟩]) := by decide

/-- C8 counterexample: sync is not idempotent for a trace whose name
carries a doubled prefix: with prefix `"P-"` and an under-budget slice, the
first sync strips one `"P-"` (giving `"P-a"`), the second strips another
(giving `"a"`), so applying sync twice differs from applying it once. -/
theorem sync_not_idempotent_double_decor_cex :
    ((checkUpdateTraceData ['P', '-'] []
        [("u", mkLinEntry [((0 : ℚ), Flt.val 1)] 5)]
        { type_ := "scatter", uid := some "u",
          name := some ['P', '-', 'P', '-', 'a'],
          x := ⟨linMeta, []⟩, y := ⟨.float64, []⟩, text := .none,
          hovertext := .none, yaxis := none } none none).map Trace.name
      = .ok (some ['P', '-', 'a'])) ∧
    (((checkUpdateTraceData ['P', '-'] []
        [("u", mkLinEntry [((0 : ℚ), Flt.val 1)] 5)]
        { type_ := "scatter", uid := some "u",
          name := some ['P', '-', 'P', '-', 'a'],
          x := ⟨linMeta, []⟩, y := ⟨.float64, []⟩, text := .none,
          hovertext := .none, yaxis := none } none none).bind
        (fun t1 => checkUpdateTraceData ['P', '-'] []
          [("u", mkLinEntry [((0 : ℚ), Flt.val 1)] 5)] t1 none none)).map
        Trace.name
      = .ok (some ['a'])) := by
  constructor
  · decide
  · decide

/-- C9 counterexample: when the entry's hovertext is absent (`None`), sync
*overwrites* the trace's hovertext with `None` instead of leaving it
untouched: a trace entering sync with hovertext `["abc"]` leaves it with
hovertext `None`. -/
theorem sync_overwrites_absent_hovertext_cex :
    (checkUpdateTraceData [] [] [("u", mkLinEntry [((0 : ℚ), Flt.val 1)] 5)]
        { type_ := "scatter", uid := some "u", name := some ['s'],
          x := ⟨linMeta, []⟩, y := ⟨.float64, []⟩, text := .none,
          hovertext := .arr [['a', 'b', 'c']], yaxis := none }
        none none).map Trace.hovertext
      = .ok HTVal.none := by decide

/-- C2 counterexample: a non-eligible (bar) trace is *not* passed through
completely unchanged apart from the hf_x/hf_y merge — `add_trace` first
assigns every trace a fresh correlation uid (line 388): the input trace
has uid `None`, the added one carries the fresh uid. -/
theorem add_trace_nonscatter_uid_reassigned_cex :
    ((addTrace frFix { barTr with x := ⟨linMeta, [1]⟩ } none none false
        none none none "u").map (fun fr => fr.traces.map Trace.uid)
      = .ok [some "u"]) ∧ barTr.uid = none := by
  constructor
  · decide
  · decide

/-! ## Support lemmas for the synchronizer theorems -/

theorem trace_eq_of_fields {a b : Trace} (h1 : a.type_ = b.type_)
    (h2 : a.uid = b.uid) (h3 : a.name = b.name) (h4 : a.x = b.x)
    (h5 : a.y = b.y) (h6 : a.text = b.text) (h7 : a.hovertext = b.hovertext)
    (h8 : a.yaxis = b.yaxis) : a = b := by
  cases a; cases b; simp_all

/-- In a key-sorted list, the last element's key bounds every member's key. -/
theorem sorted_getLast?_ge :
    ∀ (l : List (ℚ × Str)), (l.map Prod.fst).Pairwise (· ≤ ·) →
      ∀ p : ℚ × Str, p ∈ l →
      ∃ b, l.getLast? = some b ∧ p.1 ≤ b.1 ∧ b ∈ l := by
  intro l
  induction l with
  | nil => intro _ p hp; cases hp
  | cons a rest ih =>
    intro hs p hp
    rw [List.map_cons, List.pairwise_cons] at hs
    have hs' : (∀ q ∈ rest, a.1 ≤ q.1) ∧
        (rest.map Prod.fst).Pairwise (· ≤ ·) :=
      ⟨fun q hq => hs.1 q.1 (List.mem_map_of_mem Prod.fst hq), hs.2⟩
    cases rest with
    | nil =>
      rcases List.mem_cons.mp hp with h | h
      · exact ⟨a, rfl, by rw [h], List.mem_singleton.mpr rfl⟩
      · cases h
    | cons r rs =>
      have hmem : ∀ q ∈ r :: rs, a.1 ≤ q.1 := hs'.1
      rcases List.mem_cons.mp hp with h | h
      · rcases ih hs'.2 r (List.mem_cons_self r rs) with ⟨b, hb, _, hbm⟩
        refine ⟨b, ?_, ?_, .tail _ hbm⟩
        · rw [List.getLast?_cons_cons]; exact hb
        · rw [h]; exact hmem b hbm
      · rcases ih hs'.2 p h with ⟨b, hb, hpb, hbm⟩
        refine ⟨b, ?_, hpb, .tail _ hbm⟩
        rw [List.getLast?_cons_cons]; exact hb

/-- When the reduced position occurs exactly in the (sorted) hovertext
series with a unique value, the nearest join returns exactly that value:
the realignment recovers the original per-point attribute (it is a join on
positions, not a positional index copy). -/
theorem asofNearest_exact (pts : List (ℚ × Str)) (k : ℚ) (v : Str)
    (hsort : (pts.map Prod.fst).Pairwise (· ≤ ·))
    (hmem : (k, v) ∈ pts) (huniq : ∀ p ∈ pts, p.1 = k → p.2 = v) :
    asofNearest pts k = some v := by
  have hbmem : (k, v) ∈ pts.filter (fun p => decide (p.1 ≤ k)) :=
    List.mem_filter.mpr ⟨hmem, by simp⟩
  have hbsort : ((pts.filter (fun p => decide (p.1 ≤ k))).map
      Prod.fst).Pairwise (· ≤ ·) :=
    hsort.sublist ((List.filter_sublist pts).map Prod.fst)
  rcases sorted_getLast?_ge _ hbsort _ hbmem with ⟨b, hbl, hkb, hbm⟩
  have hble : b.1 ≤ k := by
    have := (List.mem_filter.mp hbm).2
    simpa using this
  have hbk : b.1 = k := le_antisymm hble hkb
  have hbv : b.2 = v := huniq b (List.mem_filter.mp hbm).1 hbk
  have hfmem : (k, v) ∈ pts.filter (fun p => decide (k ≤ p.1)) :=
    List.mem_filter.mpr ⟨hmem, by simp⟩
  rcases hfl : (pts.filter (fun p => decide (k ≤ p.1))) with _ | ⟨f, fs⟩
  · rw [hfl] at hfmem; cases hfmem
  · have hfm : f ∈ pts.filter (fun p => decide (k ≤ p.1)) := by
      rw [hfl]; exact List.mem_cons_self f fs
    have hkf : k ≤ f.1 := by
      have := (List.mem_filter.mp hfm).2
      simpa using this
    unfold asofNearest lastLE firstGE
    rw [hbl, hfl]
    simp only [List.head?_cons]
    rw [if_pos]
    · rw [hbv]
    · rw [subQ_eq, subQ_eq, hbk, sub_self]
      exact sub_nonneg.mpr hkf

/-- If neither strip condition applies and the view is not aggregated, the
decoration step leaves the trace unchanged. -/
theorem applyDecor_noop (pre suf : Str) (t : Trace) (n : Str)
    (hp : ¬(0 < pre.length ∧ startsW pre n))
    (hs : ¬(0 < suf.length ∧ endsW suf n)) :
    applyDecor pre suf false t n = t := by
  simp [applyDecor, hp, hs]

/-- `_query_hf_data` depends only on the trace's uid. -/
theorem queryHfData_uid_congr (store : Store) {a b : Trace}
    (h : a.uid = b.uid) : queryHfData store a = queryHfData store b := by
  simp [queryHfData, h]

/-! ## C9 -/

/-- C9 (amended): in step 5 of a successful sync on a trace with an entry,
the reduced x and y are written back into the rendered trace; when the
entry holds a hovertext *series*, it is realigned to the reduced positions
via a nearest-match join (and the final conjunct shows the join recovers
the exact value at an exactly matching position — a join, not a positional
index copy); however, when the entry's hovertext is absent (`None`) the
trace's hovertext is *overwritten* with `None` rather than left untouched;
the fields sync never writes (`text`, `uid`, `yaxis`, `type`) are
unchanged. -/
theorem sync_writeback_alignment (pre suf : Str) (store : Store) (t : Trace)
    (s e : Option Bnd) (hf : HfData) (n : Str) (hs : List (ℚ × Flt))
    (t' : Trace) (hq : queryHfData store t = some hf) (hn : t.name = some n)
    (hsl : sliceOf hf s e = .ok hs)
    (h : checkUpdateTraceData pre suf store t s e = .ok t') :
    t'.x = ⟨hf.meta, (hf.downsampler hs hf.max_n_samples).map Prod.fst⟩ ∧
    t'.y = ⟨hf.ydtype, (hf.downsampler hs hf.max_n_samples).map Prod.snd⟩ ∧
    (∀ pts, hf.hovertext = .ser pts →
      t'.hovertext =
        .arr (mergeAsofNearest (hf.downsampler hs hf.max_n_samples) pts)) ∧
    (hf.hovertext = HTVal.none → t'.hovertext = HTVal.none) ∧
    t'.text = t.text ∧ t'.uid = t.uid ∧ t'.yaxis = t.yaxis ∧
    t'.type_ = t.type_ ∧
    (∀ pts k v, (pts.map Prod.fst).Pairwise (· ≤ ·) → (k, v) ∈ pts →
      (∀ p ∈ pts, p.1 = k → p.2 = v) → asofNearest pts k = some v) := by
  rw [checkUpdate_some pre suf store t s e hf n hs hq hn hsl] at h
  have ht' : t' = syncCore pre suf hf t n hs := ((Except.ok.injEq _ _).mp h).symm
  subst ht'
  refine ⟨syncCore_x .., syncCore_y .., ?_, ?_, syncCore_text ..,
    syncCore_uid .., syncCore_yaxis .., syncCore_type .., ?_⟩
  · intro pts hpts
    exact syncCore_hovertext_ser pre suf hf t n hs pts hpts
  · intro hnone
    rw [syncCore_hovertext_nonser pre suf hf t n hs (by simp [hnone])]
    exact hnone
  · intro pts k v h1 h2 h3
    exact asofNearest_exact pts k v h1 h2 h3

/-- A date-axis entry whose hovertext is the series `[(0,"a"),(1,"b"),
(2,"c")]` over points `[(0,1),(1,2),(2,3)]`. -/
def wEntry9 : HfData :=
  { max_n_samples := 5, meta := ⟨true, none, false⟩, ydtype := .float64,
    points := [(0, .val 1), (1, .val 2), (2, .val 3)], axis_type := .date,
    downsampler := dsIdentity,
    hovertext := .ser [(0, ['a']), (1, ['b']), (2, ['c'])] }

theorem sync_writeback_alignment_witness :
    (syncCore [] [] wEntry9
        { type_ := "scatter", uid := some "u", name := some ['s'],
          x := ⟨⟨true, none, false⟩, []⟩, y := ⟨.float64, []⟩, text := .none,
          hovertext := .none, yaxis := none } ['s']
        wEntry9.points).hovertext =
      .arr (mergeAsofNearest (wEntry9.downsampler wEntry9.points 5)
        [(0, ['a']), (1, ['b']), (2, ['c'])]) ∧
    asofNearest [(0, ['a']), (1, ['b']), (2, ['c'])] 1 = some ['b'] := by
  have H := sync_writeback_alignment [] [] [("u", wEntry9)]
      { type_ := "scatter", uid := some "u", name := some ['s'],
        x := ⟨⟨true, none, false⟩, []⟩, y := ⟨.float64, []⟩, text := .none,
        hovertext := .none, yaxis := none } none none wEntry9 ['s']
      wEntry9.points
      (syncCore [] [] wEntry9
        { type_ := "scatter", uid := some "u", name := some ['s'],
          x := ⟨⟨true, none, false⟩, []⟩, y := ⟨.float64, []⟩, text := .none,
          hovertext := .none, yaxis := none } ['s'] wEntry9.points)
      rfl rfl (by decide)
      (checkUpdate_some [] [] [("u", wEntry9)] _ none none wEntry9 ['s']
        wEntry9.points rfl rfl (by decide))
  exact ⟨H.2.2.1 [(0, ['a']), (1, ['b']), (2, ['c'])] (by decide),
    H.2.2.2.2.2.2.2.2 [(0, ['a']), (1, ['b']), (2, ['c'])] 1 ['b']
      (by decide) (by decide) (by decide)⟩

theorem syncCore_name_applyDecor (pre suf : Str) (hf : HfData) (t : Trace)
    (n : Str) (hs : List (ℚ × Flt)) :
    (syncCore pre suf hf t n hs).name =
      (applyDecor pre suf (decide (hs.length > hf.max_n_samples)) t n).name := by
  simp only [syncCore]
  split <;> rfl

/-- Run of `check_update_trace_data` on an *unnamed* trace with an entry,
in the only case where the source does not raise (no decoration configured
and the slice under budget). -/
theorem checkUpdate_unnamed (pre suf : Str) (store : Store) (t : Trace)
    (s e : Option Bnd) (hf : HfData) (hs : List (ℚ × Flt))
    (hq : queryHfData store t = some hf) (hn : t.name = none)
    (hsl : sliceOf hf s e = .ok hs)
    (hg : ¬(hs.length > hf.max_n_samples ∨ 0 < pre.length ∨
      0 < suf.length)) :
    checkUpdateTraceData pre suf store t s e =
      .ok (syncCore pre suf hf t [] hs) := by
  simp [checkUpdateTraceData, hq, hsl, hn, hg, exceptOkBind]

/-! ## C8 -/

/-- C8 (amended): for a trace with an entry and a fixed range, a successful
sync followed by a second sync with the same range returns the same trace,
*provided* one round of decoration-stripping is a fixpoint on the trace's
name (e.g. the name does not carry a doubled prefix — see the
counterexample for why this proviso is needed; in the aggregated case no
proviso is used, decorating is always idempotent). -/
theorem sync_idempotent_of_strip_fixpoint (pre suf : Str) (store : Store)
    (t t' : Trace) (s e : Option Bnd)
    (hfix : stripName pre suf (stripName pre suf (t.name.getD [])) =
      stripName pre suf (t.name.getD []))
    (h : checkUpdateTraceData pre suf store t s e = .ok t') :
    checkUpdateTraceData pre suf store t' s e = .ok t' := by
  rcases checkUpdate_inv h with ⟨hq, ht⟩ | ⟨hf, hs, nm, hq, hsl, hname, ht'⟩
  · rw [ht]
    exact checkUpdate_no_entry pre suf store t s e hq
  · have huid : t'.uid = t.uid := by rw [ht']; exact syncCore_uid ..
    have hq' : queryHfData store t' = some hf := by
      rw [queryHfData_uid_congr store huid]; exact hq
    have hover : ∀ m, (syncCore pre suf hf t' m hs).hovertext =
        t'.hovertext := by
      intro m
      by_cases hser : ∃ pts, hf.hovertext = .ser pts
      · obtain ⟨pts, hpts⟩ := hser
        rw [syncCore_hovertext_ser _ _ _ _ m _ pts hpts, ht',
          syncCore_hovertext_ser _ _ _ _ _ _ pts hpts]
      · push_neg at hser
        rw [syncCore_hovertext_nonser _ _ _ _ m _ hser, ht',
          syncCore_hovertext_nonser _ _ _ _ _ _ hser]
    have hxeq : ∀ m, (syncCore pre suf hf t' m hs).x = t'.x := by
      intro m
      rw [syncCore_x, ht', syncCore_x]
    have hyeq : ∀ m, (syncCore pre suf hf t' m hs).y = t'.y := by
      intro m
      rw [syncCore_y, ht', syncCore_y]
    rcases hname with hn | ⟨hn, hnm, hg⟩
    · -- the trace carries a name
      have hgd : t.name.getD [] = nm := by rw [hn]; rfl
      have hfix' : stripName pre suf (stripName pre suf nm) =
          stripName pre suf nm := by rw [← hgd]; exact hfix
      have hm : t'.name = some (if hs.length > hf.max_n_samples
          then decorName pre suf nm else stripName pre suf nm) := by
        rw [ht']; exact syncCore_name pre suf hf t nm hs hn
      rw [checkUpdate_some pre suf store t' s e hf
        (if hs.length > hf.max_n_samples then decorName pre suf nm
         else stripName pre suf nm) hs hq' hm hsl]
      congr 1
      refine trace_eq_of_fields (syncCore_type ..) (syncCore_uid ..) ?_ ?_
        ?_ (syncCore_text ..) ?_ (syncCore_yaxis ..)
      · rw [syncCore_name pre suf hf t' _ hs hm, hm]
        by_cases hagg : hs.length > hf.max_n_samples
        · simp only [hagg, if_true, decorName_idem]
        · simp only [hagg, if_false, hfix']
      · exact hxeq _
      · exact hyeq _
      · exact hover _
    · -- the trace is unnamed: no decoration configured, under budget
      subst hnm
      have hg' : ¬(hs.length > hf.max_n_samples) ∧ ¬(0 < pre.length) ∧
          ¬(0 < suf.length) := by tauto
      have hagf : (decide (hs.length > hf.max_n_samples)) = false := by
        simpa using hg'.1
      have hnone : t'.name = none := by
        rw [ht', syncCore_name_applyDecor, hagf, applyDecor_noop pre suf t []
          (fun hc => hg'.2.1 hc.1) (fun hc => hg'.2.2 hc.1)]
        exact hn
      rw [checkUpdate_unnamed pre suf store t' s e hf hs hq' hnone hsl hg]
      congr 1
      refine trace_eq_of_fields (syncCore_type ..) (syncCore_uid ..) ?_
        (hxeq _) (hyeq _) (syncCore_text ..) (hover _) (syncCore_yaxis ..)
      rw [syncCore_name_applyDecor, hagf, applyDecor_noop pre suf t' []
        (fun hc => hg'.2.1 hc.1) (fun hc => hg'.2.2 hc.1)]

theorem sync_idempotent_of_strip_fixpoint_witness :
    checkUpdateTraceData ['P', '-'] []
        [("u", mkLinEntry [((0 : ℚ), Flt.val 1)] 5)]
        { type_ := "scatter", uid := some "u", name := some ['a'],
          x := ⟨linMeta, []⟩, y := ⟨.float64, []⟩, text := .none,
          hovertext := .none, yaxis := none } none none =
      .ok { type_ := "scatter", uid := some "u", name := some ['a'],
            x := ⟨linMeta, []⟩, y := ⟨.float64, []⟩, text := .none,
            hovertext := .none, yaxis := none } :=
  sync_idempotent_of_strip_fixpoint ['P', '-'] []
    [("u", mkLinEntry [((0 : ℚ), Flt.val 1)] 5)]
    { type_ := "scatter", uid := some "u", name := some ['P', '-', 'a'],
      x := ⟨linMeta, []⟩, y := ⟨.float64, []⟩, text := .none,
      hovertext := .none, yaxis := none }
    { type_ := "scatter", uid := some "u", name := some ['a'],
      x := ⟨linMeta, []⟩, y := ⟨.float64, []⟩, text := .none,
      hovertext := .none, yaxis := none } none none (by decide) (by decide)

/-! ## `add_trace` branch characterizations -/

/-- The `_hf_data` entry dict built at admission (lines 472-478). -/
def entryOf (fr : FR) (mn : Option ℕ) (ds : Option DS) (x2 : XArr)
    (y2 : YArr) (ht2 : HTVal) : HfData :=
  { max_n_samples := mn.getD fr.globalMax, meta := x2.meta,
    ydtype := y2.dtype, points := x2.xs.zip y2.ys,
    axis_type := if x2.meta.dt then .date else .linear,
    downsampler := ds.getD fr.globalDs, hovertext := ht2 }

/-- The prepared trace entering the store path: fresh uid, cleared text,
defaulted display name (lines 388, 413, 464-465). -/
def prepOf (t0 : Trace) (uid : String) (nTraces : ℕ) : Trace :=
  if t0.name = none then
    { t0 with uid := some uid, text := .none,
              name := some (defaultName nTraces) }
  else { t0 with uid := some uid, text := .none }

theorem mergedInputs_uid (t : Trace) (u : Option String) (hx : Option XArr)
    (hy : Option YArr) (hht : Option HTVal) :
    mergedInputs { t with uid := u } hx hy hht = mergedInputs t hx hy hht :=
  rfl

/-- Non-eligible branch (lines 491-499). -/
theorem addTrace_noneligible_eq (fr : FR) (t0 : Trace) (mn : Option ℕ)
    (ds : Option DS) (ltv : Bool) (hx : Option XArr) (hy : Option YArr)
    (hht : Option HTVal) (uid : String)
    (hel : pyLower t0.type_ ∉ highFrequencyTraces)
    (hne : (hx.getD t0.x).xs.length ≠ 0) :
    addTrace fr t0 mn ds ltv hx hy hht uid =
      .ok { fr with traces := fr.traces ++
        [{ t0 with uid := some uid, x := hx.getD t0.x,
                   y := hy.getD t0.y }] } := by
  unfold addTrace
  simp only [hel, if_false, hne, ite_false]

/-- Stored branch (lines 447-484): entry registered, first view computed by
the synchronizer with no range bound. -/
theorem addTrace_stored_eq (fr : FR) (t0 : Trace) (mn : Option ℕ)
    (ds : Option DS) (ltv : Bool) (hx : Option XArr) (hy : Option YArr)
    (hht : Option HTVal) (uid : String) (x0 x2 : XArr) (y0 y2 : YArr)
    (h0 h2 ht2 : HTVal)
    (hel : pyLower t0.type_ ∈ highFrequencyTraces)
    (hm : mergedInputs t0 hx hy hht = (x0, y0, h0))
    (hnb : nanBlock x0 y0 h0 = (x2, y2, h2))
    (hne : x2.xs.length ≠ 0)
    (hlen : x2.xs.length = y2.ys.length)
    (hht2 : htToSeries x2.xs h2 = .ok ht2)
    (hcond : x2.xs.length > mn.getD fr.globalMax ∨ ltv = true)
    (hmono : monotoneQ x2.xs = true) :
    addTrace fr t0 mn ds ltv hx hy hht uid =
      (checkUpdateTraceData fr.pre fr.suf
          ((uid, entryOf fr mn ds x2 y2 ht2) :: fr.store)
          (prepOf t0 uid fr.traces.length) none none).map
        fun t' => { fr with store := (uid, entryOf fr mn ds x2 y2 ht2) ::
                              fr.store,
                            traces := fr.traces ++ [t'] } := by
  unfold addTrace
  simp only [hel, if_true, mergedInputs_uid, hm, hnb]
  rw [if_neg hne, if_neg (fun hcon => hcon hlen), hht2]
  simp only [Except.bind]
  rw [if_pos hcond, if_pos hmono]
  rfl

/-- Raw pass-through branch for eligible traces (lines 485-490). -/
theorem addTrace_raw_eq (fr : FR) (t0 : Trace) (mn : Option ℕ)
    (ds : Option DS) (ltv : Bool) (hx : Option XArr) (hy : Option YArr)
    (hht : Option HTVal) (uid : String) (x0 x2 : XArr) (y0 y2 : YArr)
    (h0 h2 ht2 : HTVal)
    (hel : pyLower t0.type_ ∈ highFrequencyTraces)
    (hm : mergedInputs t0 hx hy hht = (x0, y0, h0))
    (hnb : nanBlock x0 y0 h0 = (x2, y2, h2))
    (hne : x2.xs.length ≠ 0)
    (hlen : x2.xs.length = y2.ys.length)
    (hht2 : htToSeries x2.xs h2 = .ok ht2)
    (hcond : ¬(x2.xs.length > mn.getD fr.globalMax ∨ ltv = true)) :
    addTrace fr t0 mn ds ltv hx hy hht uid =
      .ok { fr with traces := fr.traces ++
        [{ t0 with uid := some uid, x := x2, y := y2, text := ht2 }] } := by
  unfold addTrace
  simp only [hel, if_true, mergedInputs_uid, hm, hnb]
  rw [if_neg hne, if_neg (fun hcon => hcon hlen), hht2]
  simp only [Except.bind]
  rw [if_neg hcond]

/-- Empty-after-NaN-removal: admission fails (line 433). -/
theorem addTrace_empty_err (fr : FR) (t0 : Trace) (mn : Option ℕ)
    (ds : Option DS) (ltv : Bool) (hx : Option XArr) (hy : Option YArr)
    (hht : Option HTVal) (uid : String) (x0 x2 : XArr) (y0 y2 : YArr)
    (h0 h2 : HTVal)
    (hel : pyLower t0.type_ ∈ highFrequencyTraces)
    (hm : mergedInputs t0 hx hy hht = (x0, y0, h0))
    (hnb : nanBlock x0 y0 h0 = (x2, y2, h2))
    (hempty : x2.xs.length = 0) :
    addTrace fr t0 mn ds ltv hx hy hht uid =
      .error "AssertionError: len(hf_x) > 0" := by
  unfold addTrace
  simp only [hel, if_true, mergedInputs_uid, hm, hnb, hempty, ite_true]

/-- Non-monotone positions when the entry would be stored: admission fails
(line 458). -/
theorem addTrace_nonmono_err (fr : FR) (t0 : Trace) (mn : Option ℕ)
    (ds : Option DS) (ltv : Bool) (hx : Option XArr) (hy : Option YArr)
    (hht : Option HTVal) (uid : String) (x0 x2 : XArr) (y0 y2 : YArr)
    (h0 h2 ht2 : HTVal)
    (hel : pyLower t0.type_ ∈ highFrequencyTraces)
    (hm : mergedInputs t0 hx hy hht = (x0, y0, h0))
    (hnb : nanBlock x0 y0 h0 = (x2, y2, h2))
    (hne : x2.xs.length ≠ 0)
    (hlen : x2.xs.length = y2.ys.length)
    (hht2 : htToSeries x2.xs h2 = .ok ht2)
    (hcond : x2.xs.length > mn.getD fr.globalMax ∨ ltv = true)
    (hmono : monotoneQ x2.xs = false) :
    addTrace fr t0 mn ds ltv hx hy hht uid =
      .error "AssertionError: index.is_monotonic_increasing" := by
  unfold addTrace
  simp only [hel, if_true, mergedInputs_uid, hm, hnb]
  rw [if_neg hne, if_neg (fun hcon => hcon hlen), hht2]
  simp only [Except.bind]
  rw [if_pos hcond, if_neg (by simp [hmono])]

/-- Non-eligible branch with empty merged x: the assert fails. -/
theorem addTrace_noneligible_empty_err (fr : FR) (t0 : Trace)
    (mn : Option ℕ) (ds : Option DS) (ltv : Bool) (hx : Option XArr)
    (hy : Option YArr) (hht : Option HTVal) (uid : String)
    (hel : pyLower t0.type_ ∉ highFrequencyTraces)
    (hne : (hx.getD t0.x).xs.length = 0) :
    addTrace fr t0 mn ds ltv hx hy hht uid =
      .error "AssertionError: len(trace.x) > 0" := by
  unfold addTrace
  simp only [hel, if_false, hne, ite_true]

/-- x/y length mismatch after the NaN block: the assert fails. -/
theorem addTrace_len_err (fr : FR) (t0 : Trace) (mn : Option ℕ)
    (ds : Option DS) (ltv : Bool) (hx : Option XArr) (hy : Option YArr)
    (hht : Option HTVal) (uid : String) (x0 x2 : XArr) (y0 y2 : YArr)
    (h0 h2 : HTVal)
    (hel : pyLower t0.type_ ∈ highFrequencyTraces)
    (hm : mergedInputs t0 hx hy hht = (x0, y0, h0))
    (hnb : nanBlock x0 y0 h0 = (x2, y2, h2))
    (hne : x2.xs.length ≠ 0)
    (hlen : x2.xs.length ≠ y2.ys.length) :
    addTrace fr t0 mn ds ltv hx hy hht uid =
      .error "AssertionError: len(hf_x) == len(hf_y)" := by
  unfold addTrace
  simp only [hel, if_true, mergedInputs_uid, hm, hnb]
  rw [if_neg hne, if_pos hlen]

/-- Hovertext length mismatch in the `pd.Series` constructor. -/
theorem addTrace_htser_err (fr : FR) (t0 : Trace) (mn : Option ℕ)
    (ds : Option DS) (ltv : Bool) (hx : Option XArr) (hy : Option YArr)
    (hht : Option HTVal) (uid : String) (x0 x2 : XArr) (y0 y2 : YArr)
    (h0 h2 : HTVal) (msg : String)
    (hel : pyLower t0.type_ ∈ highFrequencyTraces)
    (hm : mergedInputs t0 hx hy hht = (x0, y0, h0))
    (hnb : nanBlock x0 y0 h0 = (x2, y2, h2))
    (hne : x2.xs.length ≠ 0)
    (hlen : x2.xs.length = y2.ys.length)
    (hht2 : htToSeries x2.xs h2 = .error msg) :
    addTrace fr t0 mn ds ltv hx hy hht uid = .error msg := by
  unfold addTrace
  simp only [hel, if_true, mergedInputs_uid, hm, hnb]
  rw [if_neg hne, if_neg (fun hcon => hcon hlen), hht2]
  rfl

/-- Every entry present after a successful `add_trace` either predates the
call or holds a nonempty series with monotone positions: no entry is ever
registered with corrupted or empty data. -/
theorem addTrace_ok_store_inv {fr fr' : FR} {t0 : Trace} {mn : Option ℕ}
    {ds : Option DS} {ltv : Bool} {hx : Option XArr} {hy : Option YArr}
    {hht : Option HTVal} {uid : String}
    (h : addTrace fr t0 mn ds ltv hx hy hht uid = .ok fr') :
    ∀ p ∈ fr'.store, p ∈ fr.store ∨
      (p.2.points ≠ [] ∧ monotoneQ (p.2.points.map Prod.fst) = true) := by
  by_cases hel : pyLower t0.type_ ∈ highFrequencyTraces
  · rcases hm : mergedInputs t0 hx hy hht with ⟨x0, y0, h0⟩
    rcases hnb : nanBlock x0 y0 h0 with ⟨x2, y2, h2⟩
    by_cases hne : x2.xs.length = 0
    · rw [addTrace_empty_err fr t0 mn ds ltv hx hy hht uid x0 x2 y0 y2 h0 h2
        hel hm hnb hne] at h
      cases h
    · by_cases hlen : x2.xs.length = y2.ys.length
      · rcases hht2 : htToSeries x2.xs h2 with msg | ht2
        · rw [addTrace_htser_err fr t0 mn ds ltv hx hy hht uid x0 x2 y0 y2
            h0 h2 msg hel hm hnb hne hlen hht2] at h
          cases h
        · by_cases hcond : x2.xs.length > mn.getD fr.globalMax ∨ ltv = true
          · by_cases hmono : monotoneQ x2.xs = true
            · rw [addTrace_stored_eq fr t0 mn ds ltv hx hy hht uid x0 x2 y0
                y2 h0 h2 ht2 hel hm hnb hne hlen hht2 hcond hmono] at h
              rcases hcu : checkUpdateTraceData fr.pre fr.suf
                  ((uid, entryOf fr mn ds x2 y2 ht2) :: fr.store)
                  (prepOf t0 uid fr.traces.length) none none with msg | t'
              · rw [hcu] at h; cases h
              · rw [hcu] at h
                have hfr' : fr' = { fr with
                    store := (uid, entryOf fr mn ds x2 y2 ht2) :: fr.store,
                    traces := fr.traces ++ [t'] } :=
                  ((Except.ok.injEq _ _).mp h).symm
                subst hfr'
                intro p hp
                rcases List.mem_cons.mp hp with hpe | hpm
                · refine Or.inr ⟨?_, ?_⟩
                  · rw [hpe]
                    simp only [entryOf]
                    intro hz
                    apply hne
                    have := congrArg List.length hz
                    rw [List.length_zip, ← hlen, min_self] at this
                    exact this
                  · rw [hpe]
                    simp only [entryOf]
                    rw [List.map_fst_zip _ _ (le_of_eq hlen)]
                    exact hmono
                · exact Or.inl hpm
            · rw [addTrace_nonmono_err fr t0 mn ds ltv hx hy hht uid x0 x2
                y0 y2 h0 h2 ht2 hel hm hnb hne hlen hht2 hcond
                (Bool.not_eq_true _ ▸ hmono)] at h
              cases h
          · rw [addTrace_raw_eq fr t0 mn ds ltv hx hy hht uid x0 x2 y0 y2
              h0 h2 ht2 hel hm hnb hne hlen hht2 hcond] at h
            have hfr' : fr' = { fr with traces := fr.traces ++
                [{ t0 with uid := some uid, x := x2, y := y2,
                           text := ht2 }] } :=
              ((Except.ok.injEq _ _).mp h).symm
            subst hfr'
            intro p hp
            exact Or.inl hp
      · rw [addTrace_len_err fr t0 mn ds ltv hx hy hht uid x0 x2 y0 y2 h0 h2
          hel hm hnb hne hlen] at h
        cases h
  · by_cases hne : (hx.getD t0.x).xs.length = 0
    · rw [addTrace_noneligible_empty_err fr t0 mn ds ltv hx hy hht uid hel
        hne] at h
      cases h
    · rw [addTrace_noneligible_eq fr t0 mn ds ltv hx hy hht uid hel hne] at h
      have hfr' : fr' = { fr with traces := fr.traces ++
          [{ t0 with uid := some uid, x := hx.getD t0.x,
                     y := hy.getD t0.y }] } :=
        ((Except.ok.injEq _ _).mp h).symm
      subst hfr'
      intro p hp
      exact Or.inl hp

/-! ## C2 -/

/-- C2 (amended): `add_trace` first assigns every trace a fresh correlation
uid; then (i) a non-scatter-family trace bypasses the store and is passed
through with only `hf_x`/`hf_y` merged into its data fields (and the fresh
uid — the one respect in which it is not unchanged, see the
counterexample); (ii) for a scatter-family trace, an entry is registered
and the first rendered view is computed by immediately invoking the
synchronizer with no range bound if and only if the post-NaN-removal point
count exceeds `max_n_samples` or `limit_to_view` is set; otherwise the
trace is rendered with its raw (NaN-stripped) data and no entry is
created. -/
theorem add_trace_admission_cases (fr : FR) (t0 : Trace) (mn : Option ℕ)
    (ds : Option DS) (ltv : Bool) (hx : Option XArr) (hy : Option YArr)
    (hht : Option HTVal) (uid : String) (x0 x2 : XArr) (y0 y2 : YArr)
    (h0 h2 ht2 : HTVal) :
    (pyLower t0.type_ ∉ highFrequencyTraces →
      (hx.getD t0.x).xs.length ≠ 0 →
      addTrace fr t0 mn ds ltv hx hy hht uid =
        .ok { fr with traces := fr.traces ++
          [{ t0 with uid := some uid, x := hx.getD t0.x,
                     y := hy.getD t0.y }] }) ∧
    (pyLower t0.type_ ∈ highFrequencyTraces →
      mergedInputs t0 hx hy hht = (x0, y0, h0) →
      nanBlock x0 y0 h0 = (x2, y2, h2) →
      x2.xs.length ≠ 0 →
      x2.xs.length = y2.ys.length →
      htToSeries x2.xs h2 = .ok ht2 →
      ((x2.xs.length > mn.getD fr.globalMax ∨ ltv = true) →
        monotoneQ x2.xs = true →
        addTrace fr t0 mn ds ltv hx hy hht uid =
          (checkUpdateTraceData fr.pre fr.suf
              ((uid, entryOf fr mn ds x2 y2 ht2) :: fr.store)
              (prepOf t0 uid fr.traces.length) none none).map
            fun t' => { fr with
                        store := (uid, entryOf fr mn ds x2 y2 ht2) ::
                          fr.store,
                        traces := fr.traces ++ [t'] }) ∧
      (¬(x2.xs.length > mn.getD fr.globalMax ∨ ltv = true) →
        addTrace fr t0 mn ds ltv hx hy hht uid =
          .ok { fr with traces := fr.traces ++
            [{ t0 with uid := some uid, x := x2, y := y2,
                       text := ht2 }] })) := by
  refine ⟨?_, ?_⟩
  · intro hel hne
    exact addTrace_noneligible_eq fr t0 mn ds ltv hx hy hht uid hel hne
  · intro hel hm hnb hne hlen hht2
    refine ⟨?_, ?_⟩
    · intro hcond hmono
      exact addTrace_stored_eq fr t0 mn ds ltv hx hy hht uid x0 x2 y0 y2 h0
        h2 ht2 hel hm hnb hne hlen hht2 hcond hmono
    · intro hcond
      exact addTrace_raw_eq fr t0 mn ds ltv hx hy hht uid x0 x2 y0 y2 h0 h2
        ht2 hel hm hnb hne hlen hht2 hcond

theorem add_trace_admission_cases_witness :
    (addTrace frFix { barTr with x := ⟨linMeta, [1]⟩ } none none false none
        none none "w" =
      .ok { frFix with traces := frFix.traces ++
        [{ { barTr with x := ⟨linMeta, [1]⟩ } with
            uid := some "w", x := ⟨linMeta, [1]⟩, y := barTr.y }] }) ∧
    (addTrace frFix trInFix none none false (some ⟨linMeta, [0]⟩)
        (some ⟨.float64, [Flt.val 7]⟩) none "w" =
      .ok { frFix with traces := frFix.traces ++
        [{ trInFix with
            uid := some "w", x := ⟨linMeta, [0]⟩,
            y := ⟨.float64, [Flt.val 7]⟩, text := .none }] }) := by
  constructor
  · exact (add_trace_admission_cases frFix { barTr with x := ⟨linMeta, [1]⟩ }
      none none false none none none "w" ⟨linMeta, []⟩ ⟨linMeta, []⟩
      ⟨.float64, []⟩ ⟨.float64, []⟩ .none .none .none).1 (by decide)
      (by decide)
  · exact ((add_trace_admission_cases frFix trInFix none none false
      (some ⟨linMeta, [0]⟩) (some ⟨.float64, [Flt.val 7]⟩) none "w"
      ⟨linMeta, [0]⟩ ⟨linMeta, [0]⟩ ⟨.float64, [Flt.val 7]⟩
      ⟨.float64, [Flt.val 7]⟩ .none .none .none).2 (by decide) (by decide)
      (by decide) (by decide) (by decide) (by decide)).2 (by decide)

/-! ## C6 -/

/-- C6 (amended): admission of a high-frequency-eligible trace fails
synchronously when the series is empty after NaN removal (always), and on
non-monotone positions exactly when the entry would be stored (count over
budget or `limit_to_view`); an under-budget non-monotone trace is passed
through without error and without an entry (see counterexample); and in no
case does a successful call register an entry with empty or non-monotone
data. -/
theorem admission_error_and_store_invariant (fr : FR) (t0 : Trace)
    (mn : Option ℕ) (ds : Option DS) (ltv : Bool) (hx : Option XArr)
    (hy : Option YArr) (hht : Option HTVal) (uid : String) (x0 x2 : XArr)
    (y0 y2 : YArr) (h0 h2 ht2 : HTVal) :
    (pyLower t0.type_ ∈ highFrequencyTraces →
      mergedInputs t0 hx hy hht = (x0, y0, h0) →
      nanBlock x0 y0 h0 = (x2, y2, h2) →
      x2.xs.length = 0 →
      addTrace fr t0 mn ds ltv hx hy hht uid =
        .error "AssertionError: len(hf_x) > 0") ∧
    (pyLower t0.type_ ∈ highFrequencyTraces →
      mergedInputs t0 hx hy hht = (x0, y0, h0) →
      nanBlock x0 y0 h0 = (x2, y2, h2) →
      x2.xs.length ≠ 0 →
      x2.xs.length = y2.ys.length →
      htToSeries x2.xs h2 = .ok ht2 →
      (x2.xs.length > mn.getD fr.globalMax ∨ ltv = true) →
      monotoneQ x2.xs = false →
      addTrace fr t0 mn ds ltv hx hy hht uid =
        .error "AssertionError: index.is_monotonic_increasing") ∧
    (∀ fr', addTrace fr t0 mn ds ltv hx hy hht uid = .ok fr' →
      ∀ p ∈ fr'.store, p ∈ fr.store ∨
        (p.2.points ≠ [] ∧ monotoneQ (p.2.points.map Prod.fst) = true)) := by
  refine ⟨?_, ?_, ?_⟩
  · intro hel hm hnb hempty
    exact addTrace_empty_err fr t0 mn ds ltv hx hy hht uid x0 x2 y0 y2 h0 h2
      hel hm hnb hempty
  · intro hel hm hnb hne hlen hht2 hcond hmono
    exact addTrace_nonmono_err fr t0 mn ds ltv hx hy hht uid x0 x2 y0 y2 h0
      h2 ht2 hel hm hnb hne hlen hht2 hcond hmono
  · intro fr' h
    exact addTrace_ok_store_inv h

theorem admission_error_and_store_invariant_witness :
    (addTrace frFix trInFix none none false (some ⟨linMeta, [0]⟩)
        (some ⟨.float64, [Flt.nan]⟩) none "w" =
      .error "AssertionError: len(hf_x) > 0") ∧
    (addTrace frFix trInFix none none true (some ⟨linMeta, [1, 0]⟩)
        (some ⟨.float64, [Flt.val 1, Flt.val 2]⟩) none "w" =
      .error "AssertionError: index.is_monotonic_increasing") := by
  constructor
  · exact (admission_error_and_store_invariant frFix trInFix none none
      false (some ⟨linMeta, [0]⟩) (some ⟨.float64, [Flt.nan]⟩) none "w"
      ⟨linMeta, [0]⟩ ⟨linMeta, []⟩ ⟨.float64, [Flt.nan]⟩ ⟨.float64, []⟩
      .none .none .none).1 (by decide) (by decide) (by decide) (by decide)
  · exact (admission_error_and_store_invariant frFix trInFix none none true
      (some ⟨linMeta, [1, 0]⟩) (some ⟨.float64, [Flt.val 1, Flt.val 2]⟩)
      none "w" ⟨linMeta, [1, 0]⟩ ⟨linMeta, [1, 0]⟩
      ⟨.float64, [Flt.val 1, Flt.val 2]⟩ ⟨.float64, [Flt.val 1, Flt.val 2]⟩
      .none .none .none).2.1 (by decide) (by decide) (by decide) (by decide)
      (by decide) (by decide) (by decide) (by decide)

/-! ## Masking lemmas and the stored-path success lemma -/

theorem applyMask_cons {α : Type} (a : α) (l : List α) (b : Bool)
    (m : List Bool) :
    applyMask (a :: l) (b :: m) =
      if b then a :: applyMask l m else applyMask l m := by
  cases b <;> simp [applyMask]

theorem applyMask_length_congr {α β : Type} :
    ∀ (m : List Bool) (l1 : List α) (l2 : List β),
      l1.length = l2.length →
      (applyMask l1 m).length = (applyMask l2 m).length := by
  intro m
  induction m with
  | nil => intro l1 l2 _; simp [applyMask]
  | cons b bs ih =>
    intro l1 l2 hlen
    cases l1 with
    | nil =>
      cases l2 with
      | nil => rfl
      | cons c cs => cases hlen
    | cons a as =>
      cases l2 with
      | nil => cases hlen
      | cons c cs =>
        rw [applyMask_cons, applyMask_cons]
        have hlen' : as.length = cs.length := Nat.succ_injective hlen
        cases b
        · simpa using ih as cs hlen'
        · simpa using ih as cs hlen'

/-- Masking x and y by the non-NaN mask of y and re-zipping is exactly
filtering the zipped series by non-NaN value. -/
theorem applyMask_zip_filter :
    ∀ (xs : List ℚ) (ys : List Flt), xs.length = ys.length →
      (applyMask xs ((ys.map isnanF).map (!·))).zip
          (applyMask ys ((ys.map isnanF).map (!·))) =
        (xs.zip ys).filter fun p => !(isnanF p.2) := by
  intro xs
  induction xs with
  | nil => intro ys _; simp [applyMask]
  | cons x xs' ih =>
    intro ys hlen
    cases ys with
    | nil => cases hlen
    | cons y ys' =>
      have hlen' : xs'.length = ys'.length := Nat.succ_injective hlen
      have ih' := ih ys' hlen'
      simp only [List.map_map] at ih'
      cases hy : isnanF y
      · simp [applyMask_cons, hy, List.filter_cons, ih']
      · simp [applyMask_cons, hy, List.filter_cons, ih']

theorem maskHt_arr (vs : List Str) (mask : List Bool)
    (h : vs.length = mask.length) :
    maskHt (.arr vs) mask = .ok (.arr (applyMask vs mask)) := by
  simp [maskHt, maskArr, h, Except.map]

/-- The NaN block on a dtype supporting `np.isnan`, with equal x/y lengths
and a maskable hovertext: everything is masked by the non-NaN mask of y,
and `uint8`/`uint16` values are widened. -/
theorem nanBlock_supported (x : XArr) (y : YArr) (ht ht1 : HTVal)
    (hsupp : supportsIsnan y.dtype = true)
    (hlen : x.xs.length = y.ys.length)
    (hmh : maskHt ht ((y.ys.map isnanF).map (!·)) = .ok ht1) :
    nanBlock x y ht =
      ({ x with xs := applyMask x.xs ((y.ys.map isnanF).map (!·)) },
       { dtype := if y.dtype = .uint8 ∨ y.dtype = .uint16 then Dtype.uint32
                  else y.dtype,
         ys := applyMask y.ys ((y.ys.map isnanF).map (!·)) }, ht1) := by
  have h1 : npIsnan y = .ok (y.ys.map isnanF) := by
    unfold npIsnan
    rw [if_pos hsupp]
  have h2 : maskArr x.xs ((y.ys.map isnanF).map (!·)) =
      .ok (applyMask x.xs ((y.ys.map isnanF).map (!·))) := by
    unfold maskArr
    rw [if_pos (by simp [hlen])]
  unfold nanBlock
  rw [h1]
  simp only
  rw [h2, hmh]

/-- The NaN block on a dtype on which `np.isnan` raises: the bare
`except: pass` swallows the `TypeError` before any assignment, so nothing
changes. -/
theorem nanBlock_unsupported (x : XArr) (y : YArr) (ht : HTVal)
    (hsupp : supportsIsnan y.dtype = false) :
    nanBlock x y ht = (x, y, ht) := by
  have h1 : npIsnan y = .error "TypeError: isnan not supported" := by
    unfold npIsnan
    rw [if_neg (by simp [hsupp])]
  unfold nanBlock
  rw [h1]

theorem prepOf_uid (t0 : Trace) (uid : String) (k : ℕ) :
    (prepOf t0 uid k).uid = some uid := by
  unfold prepOf
  split <;> rfl

theorem prepOf_name (t0 : Trace) (uid : String) (k : ℕ) :
    ∃ n, (prepOf t0 uid k).name = some n := by
  unfold prepOf
  rcases ht : t0.name with _ | n
  · exact ⟨defaultName k, by simp [ht]⟩
  · exact ⟨n, by simp [ht]⟩

theorem sliceOf_none_ok (hf : HfData) :
    ∃ hs, sliceOf hf none none = .ok hs := by
  unfold sliceOf
  split
  · exact ⟨_, rfl⟩
  · exact ⟨_, rfl⟩

/-- The stored path of `add_trace` never errors: the initial synchronizer
call has no range bound (slicing succeeds) and the prepared trace always
carries a name, so one trace is appended and the entry registered. -/
theorem addTrace_stored_ok (fr : FR) (t0 : Trace) (mn : Option ℕ)
    (ds : Option DS) (ltv : Bool) (hx : Option XArr) (hy : Option YArr)
    (hht : Option HTVal) (uid : String) (x0 x2 : XArr) (y0 y2 : YArr)
    (h0 h2 ht2 : HTVal)
    (hel : pyLower t0.type_ ∈ highFrequencyTraces)
    (hm : mergedInputs t0 hx hy hht = (x0, y0, h0))
    (hnb : nanBlock x0 y0 h0 = (x2, y2, h2))
    (hne : x2.xs.length ≠ 0)
    (hlen : x2.xs.length = y2.ys.length)
    (hht2 : htToSeries x2.xs h2 = .ok ht2)
    (hcond : x2.xs.length > mn.getD fr.globalMax ∨ ltv = true)
    (hmono : monotoneQ x2.xs = true) :
    ∃ t', addTrace fr t0 mn ds ltv hx hy hht uid =
      .ok { fr with store := (uid, entryOf fr mn ds x2 y2 ht2) :: fr.store,
                    traces := fr.traces ++ [t'] } := by
  obtain ⟨n, hn⟩ := prepOf_name t0 uid fr.traces.length
  obtain ⟨hs, hsl⟩ := sliceOf_none_ok (entryOf fr mn ds x2 y2 ht2)
  have hq : queryHfData ((uid, entryOf fr mn ds x2 y2 ht2) :: fr.store)
      (prepOf t0 uid fr.traces.length) =
      some (entryOf fr mn ds x2 y2 ht2) := by
    unfold queryHfData
    rw [prepOf_uid]
    simp [List.lookup]
  refine ⟨syncCore fr.pre fr.suf (entryOf fr mn ds x2 y2 ht2)
    (prepOf t0 uid fr.traces.length) n hs, ?_⟩
  rw [addTrace_stored_eq fr t0 mn ds ltv hx hy hht uid x0 x2 y0 y2 h0 h2
    ht2 hel hm hnb hne hlen hht2 hcond hmono]
  rw [checkUpdate_some fr.pre fr.suf _ _ none none _ n hs hq hn hsl]
  rfl

/-! ## C5 -/

/-- C5 (amended): for every admitted scatter-family trace whose value dtype
supports `np.isnan`, NaN values are removed from the series and from the
aligned hovertext array at admission time: the registered entry's series is
exactly the non-NaN `(position, value)` pairs of the input, and its
hovertext series is the same-mask selection of the input hovertext aligned
to the masked positions.  (For dtypes on which `np.isnan` raises the
removal is silently skipped — see the counterexample and C10.) -/
theorem admission_stores_nonnan_pairs (fr : FR) (t0 : Trace)
    (mn : Option ℕ) (ds : Option DS) (ltv : Bool) (hx : Option XArr)
    (hy : Option YArr) (hht : Option HTVal) (uid : String) (x0 : XArr)
    (y0 : YArr) (vs : List Str)
    (hel : pyLower t0.type_ ∈ highFrequencyTraces)
    (hm : mergedInputs t0 hx hy hht = (x0, y0, .arr vs))
    (hsupp : supportsIsnan y0.dtype = true)
    (hlen : x0.xs.length = y0.ys.length)
    (hvlen : vs.length = y0.ys.length)
    (hne : (applyMask x0.xs ((y0.ys.map isnanF).map (!·))).length ≠ 0)
    (hcond : (applyMask x0.xs ((y0.ys.map isnanF).map (!·))).length >
        mn.getD fr.globalMax ∨ ltv = true)
    (hmono : monotoneQ (applyMask x0.xs ((y0.ys.map isnanF).map (!·))) =
      true) :
    ∃ t', addTrace fr t0 mn ds ltv hx hy hht uid =
      .ok { fr with
            store := (uid,
              { max_n_samples := mn.getD fr.globalMax,
                meta := x0.meta,
                ydtype := if y0.dtype = .uint8 ∨ y0.dtype = .uint16 then
                    Dtype.uint32 else y0.dtype,
                points := (x0.xs.zip y0.ys).filter fun p => !(isnanF p.2),
                axis_type := if x0.meta.dt then .date else .linear,
                downsampler := ds.getD fr.globalDs,
                hovertext := .ser
                  ((applyMask x0.xs ((y0.ys.map isnanF).map (!·))).zip
                    (applyMask vs ((y0.ys.map isnanF).map (!·)))) }) ::
              fr.store,
            traces := fr.traces ++ [t'] } := by
  have hmlen : ((y0.ys.map isnanF).map (!·)).length = y0.ys.length := by
    simp
  have hmh : maskHt (.arr vs) ((y0.ys.map isnanF).map (!·)) =
      .ok (.arr (applyMask vs ((y0.ys.map isnanF).map (!·)))) :=
    maskHt_arr vs _ (hvlen.trans hmlen.symm)
  have hnb := nanBlock_supported x0 y0 (.arr vs) _ hsupp hlen hmh
  have hvx : vs.length = x0.xs.length := hvlen.trans hlen.symm
  have hht2 : htToSeries (applyMask x0.xs ((y0.ys.map isnanF).map (!·)))
      (.arr (applyMask vs ((y0.ys.map isnanF).map (!·)))) =
      .ok (.ser ((applyMask x0.xs ((y0.ys.map isnanF).map (!·))).zip
        (applyMask vs ((y0.ys.map isnanF).map (!·))))) := by
    simp only [htToSeries]
    rw [if_pos (applyMask_length_congr _ vs x0.xs hvx)]
  have hlen2 : (applyMask x0.xs ((y0.ys.map isnanF).map (!·))).length =
      (applyMask y0.ys ((y0.ys.map isnanF).map (!·))).length :=
    applyMask_length_congr _ x0.xs y0.ys hlen
  obtain ⟨t', ht'⟩ := addTrace_stored_ok fr t0 mn ds ltv hx hy hht uid x0
    { x0 with xs := applyMask x0.xs ((y0.ys.map isnanF).map (!·)) } y0
    { dtype := if y0.dtype = .uint8 ∨ y0.dtype = .uint16 then Dtype.uint32
               else y0.dtype,
      ys := applyMask y0.ys ((y0.ys.map isnanF).map (!·)) }
    (.arr vs) (.arr (applyMask vs ((y0.ys.map isnanF).map (!·))))
    (.ser ((applyMask x0.xs ((y0.ys.map isnanF).map (!·))).zip
      (applyMask vs ((y0.ys.map isnanF).map (!·)))))
    hel hm hnb hne hlen2 hht2 hcond hmono
  refine ⟨t', ?_⟩
  rw [ht']
  simp only [entryOf]
  rw [applyMask_zip_filter x0.xs y0.ys hlen]

/-! ## C10 -/

/-- C10: the whole NaN-removal block of `add_trace` is wrapped in a bare
`try/except` that swallows every exception.  For an `hf_y` whose dtype
does not support `np.isnan` (object/categorical/...), `np.isnan` raises as
the block's first statement, so NaN removal (mask, masking of x/y, dtype
widening, hovertext masking) is skipped entirely and nothing is changed;
the trace is then stored/rendered with its data unchanged — NaN gaps are
retained and no error surfaces to the caller from this step. -/
theorem nan_removal_skipped_unsupported_dtype (fr : FR) (t0 : Trace)
    (mn : Option ℕ) (ds : Option DS) (ltv : Bool) (hx : Option XArr)
    (hy : Option YArr) (hht : Option HTVal) (uid : String) (x0 : XArr)
    (y0 : YArr) (h0 ht2 : HTVal) :
    (supportsIsnan y0.dtype = false → nanBlock x0 y0 h0 = (x0, y0, h0)) ∧
    (pyLower t0.type_ ∈ highFrequencyTraces →
      mergedInputs t0 hx hy hht = (x0, y0, h0) →
      supportsIsnan y0.dtype = false →
      x0.xs.length ≠ 0 →
      x0.xs.length = y0.ys.length →
      htToSeries x0.xs h0 = .ok ht2 →
      (x0.xs.length > mn.getD fr.globalMax ∨ ltv = true) →
      monotoneQ x0.xs = true →
      ∃ t', addTrace fr t0 mn ds ltv hx hy hht uid =
        .ok { fr with
              store := (uid, entryOf fr mn ds x0 y0 ht2) :: fr.store,
              traces := fr.traces ++ [t'] }) := by
  refine ⟨fun hsupp => nanBlock_unsupported x0 y0 h0 hsupp, ?_⟩
  intro hel hm hsupp hne hlen hht2 hcond hmono
  exact addTrace_stored_ok fr t0 mn ds ltv hx hy hht uid x0 x0 y0 y0 h0 h0
    ht2 hel hm (nanBlock_unsupported x0 y0 h0 hsupp) hne hlen hht2 hcond
    hmono

theorem nan_removal_skipped_unsupported_dtype_witness :
    ∃ t', addTrace frFix trInFix none none true (some ⟨linMeta, [0, 1, 2]⟩)
        (some ⟨.obj, [Flt.val 1, Flt.nan, Flt.val 3]⟩) none "w" =
      .ok { frFix with
            store := ("w", entryOf frFix none none ⟨linMeta, [0, 1, 2]⟩
              ⟨.obj, [Flt.val 1, Flt.nan, Flt.val 3]⟩ .none) :: frFix.store,
            traces := frFix.traces ++ [t'] } :=
  (nan_removal_skipped_unsupported_dtype frFix trInFix none none true
    (some ⟨linMeta, [0, 1, 2]⟩)
    (some ⟨.obj, [Flt.val 1, Flt.nan, Flt.val 3]⟩) none "w"
    ⟨linMeta, [0, 1, 2]⟩ ⟨.obj, [Flt.val 1, Flt.nan, Flt.val 3]⟩ .none
    .none).2 (by decide) (by decide) (by decide) (by decide) (by decide)
    (by decide) (by decide) (by decide)

theorem admission_stores_nonnan_pairs_witness :
    ∃ t', addTrace frFix trInFix none none true (some ⟨linMeta, [0, 1, 2]⟩)
        (some ⟨.float64, [Flt.val 1, Flt.nan, Flt.val 3]⟩)
        (some (.arr [['h'], ['i'], ['j']])) "w" =
      .ok { frFix with
            store := ("w",
              ({ max_n_samples := (none : Option ℕ).getD frFix.globalMax,
                 meta := linMeta,
                 ydtype := if Dtype.float64 = .uint8 ∨
                     Dtype.float64 = .uint16 then Dtype.uint32
                   else Dtype.float64,
                 points := (([0, 1, 2] : List ℚ).zip
                   [Flt.val 1, Flt.nan, Flt.val 3]).filter
                     fun p => !(isnanF p.2),
                 axis_type := if linMeta.dt then .date else .linear,
                 downsampler := (none : Option DS).getD frFix.globalDs,
                 hovertext := .ser
                   ((applyMask [0, 1, 2]
                       (([Flt.val 1, Flt.nan, Flt.val 3].map isnanF).map
                         (!·))).zip
                     (applyMask [['h'], ['i'], ['j']]
                       (([Flt.val 1, Flt.nan, Flt.val 3].map isnanF).map
                         (!·)))) } : HfData)) :: frFix.store,
            traces := frFix.traces ++ [t'] } :=
  admission_stores_nonnan_pairs frFix trInFix none none true
    (some ⟨linMeta, [0, 1, 2]⟩)
    (some ⟨.float64, [Flt.val 1, Flt.nan, Flt.val 3]⟩)
    (some (.arr [['h'], ['i'], ['j']])) "w" ⟨linMeta, [0, 1, 2]⟩
    ⟨.float64, [Flt.val 1, Flt.nan, Flt.val 3]⟩ [['h'], ['i'], ['j']]
    (by decide) (by decide) (by decide) (by decide) (by decide) (by decide)
    (by decide) (by decide)

/-! ## Sorted-slice characterization (numeric axis) -/

theorem countP_eq_zero_of_ge {c : ℚ} {l : List ℚ} (h : ∀ k ∈ l, c ≤ k) :
    l.countP (fun k => decide (k < c)) = 0 := by
  rw [List.countP_eq_zero]
  intro k hk
  simp only [decide_eq_true_eq]
  exact not_lt.mpr (h k hk)

/-- `iloc[searchsorted(a) : searchsorted(b)]` on a key-sorted series is the
half-open window `[a, b)`: samples at `a` are included, samples whose key
equals `b` are excluded. -/
theorem sliceNumCore_filter {α : Type} (a b : ℚ) :
    ∀ (pts : List (ℚ × α)), (pts.map Prod.fst).Pairwise (· ≤ ·) →
      (pts.drop (ssLeft (pts.map Prod.fst) a)).take
          (ssLeft (pts.map Prod.fst) b - ssLeft (pts.map Prod.fst) a) =
        pts.filter fun p => decide (a ≤ p.1) && decide (p.1 < b) := by
  intro pts
  induction pts with
  | nil => intro _; rfl
  | cons p rest ih =>
    intro hsort
    rw [List.map_cons, List.pairwise_cons] at hsort
    have hhead : ∀ q ∈ rest, p.1 ≤ q.1 := fun q hq =>
      hsort.1 q.1 (List.mem_map_of_mem _ hq)
    have hheadk : ∀ k ∈ rest.map Prod.fst, p.1 ≤ k := hsort.1
    have ihr := ih hsort.2
    have ca : ssLeft ((p :: rest).map Prod.fst) a =
        ssLeft (rest.map Prod.fst) a + (if p.1 < a then 1 else 0) := by
      simp [ssLeft, List.countP_cons]
    have cb : ssLeft ((p :: rest).map Prod.fst) b =
        ssLeft (rest.map Prod.fst) b + (if p.1 < b then 1 else 0) := by
      simp [ssLeft, List.countP_cons]
    by_cases hpa : p.1 < a
    · by_cases hpb : p.1 < b
      · rw [ca, cb]
        simp only [hpa, hpb, if_true]
        rw [List.filter_cons_of_neg (by simp [not_le.mpr hpa]),
          Nat.add_sub_add_right]
        simpa using ihr
      · have hb0 : ssLeft (rest.map Prod.fst) b = 0 :=
          countP_eq_zero_of_ge fun k hk =>
            le_trans (not_lt.mp hpb) (hheadk k hk)
        rw [ca, cb, hb0]
        simp only [hpa, hpb, if_true, if_false]
        rw [List.filter_cons_of_neg (by simp [not_le.mpr hpa])]
        rw [List.filter_eq_nil_iff.mpr ?_]
        · simp
        · intro q hq
          simp only [Bool.and_eq_true, decide_eq_true_eq, not_and]
          intro _
          exact not_lt.mpr (le_trans (not_lt.mp hpb) (hhead q hq))
    · have ha0 : ssLeft (rest.map Prod.fst) a = 0 :=
        countP_eq_zero_of_ge fun k hk =>
          le_trans (not_lt.mp hpa) (hheadk k hk)
      by_cases hpb : p.1 < b
      · rw [ca, cb, ha0]
        simp only [hpa, hpb, if_true, if_false, Nat.add_zero, Nat.zero_add,
          Nat.sub_zero, List.drop_zero]
        rw [List.filter_cons_of_pos (by simp [not_lt.mp hpa, hpb])]
        rw [ha0] at ihr
        simp only [Nat.sub_zero, List.drop_zero] at ihr
        rw [List.take_succ_cons, ihr]
      · have hb0 : ssLeft (rest.map Prod.fst) b = 0 :=
          countP_eq_zero_of_ge fun k hk =>
            le_trans (not_lt.mp hpb) (hheadk k hk)
        rw [ca, cb, ha0, hb0]
        simp only [hpa, hpb, if_false]
        rw [List.filter_cons_of_neg (by simp [hpb]),
          List.filter_eq_nil_iff.mpr ?_]
        · simp
        · intro q hq
          simp only [Bool.and_eq_true, decide_eq_true_eq, not_and]
          intro _
          exact not_lt.mpr (le_trans (not_lt.mp hpb) (hhead q hq))

theorem toSameTz_wall {tz : Option String} {o o' : Option Bnd}
    (h : toSameTz tz o = .ok o') : o'.map Bnd.wall = o.map Bnd.wall := by
  cases o with
  | none =>
    simp only [toSameTz] at h
    rw [← (Except.ok.injEq _ _).mp h]
  | some t =>
    cases tz with
    | some rz =>
      rcases htz : t.tz with _ | z
      · simp only [toSameTz, htz] at h
        rw [← (Except.ok.injEq _ _).mp h]
        rfl
      · simp only [toSameTz, htz] at h
        by_cases hz : z = rz
        · rw [if_pos hz] at h
          rw [← (Except.ok.injEq _ _).mp h]
        · rw [if_neg hz] at h
          cases h
    | none =>
      rcases htz : t.tz with _ | z
      · simp only [toSameTz, htz] at h
        rw [← (Except.ok.injEq _ _).mp h]
      · simp only [toSameTz, htz] at h
        rw [← (Except.ok.injEq _ _).mp h]
        rfl

theorem optionAll_wall (o : Option Bnd) (f : ℚ → Bool) :
    (o.map Bnd.wall).all f = o.all fun x => f x.wall := by
  cases o <;> rfl

/-! ## C4 -/

/-- C4 (amended): the slice bounds behave asymmetrically by axis type.
(1) Numeric axis: bounds default to the first/last index position, are
rounded (half to even) when the index is integer-typed, and the window is
*half-open* `[start, end)`: a sample at `start` is included but a sample
whose position equals `end` is excluded (`np.searchsorted` with the
default `side='left'` for both bounds) — in particular the default
`end = index[-1]` excludes the final sample.  (2) Temporal axis: a
successful slice keeps exactly the samples with `start ≤ pos ≤ end`
(inclusive of both boundary matches, comparing wall-clock values, which
timezone normalization never changes), and absent bounds give the full
series. -/
theorem slice_bounds_characterization {α : Type} (intIdx : Bool)
    (pts : List (ℚ × α)) (s e : Option ℚ) (tz : Option String)
    (a b : Option Bnd) (r : List (ℚ × α)) :
    ((pts.map Prod.fst).Pairwise (· ≤ ·) →
      sliceNum intIdx pts s e =
        pts.filter fun p =>
          decide ((if intIdx then
              ((roundHalfEven (s.getD ((pts.map Prod.fst).headD 0)) : ℤ) :
                ℚ)
            else s.getD ((pts.map Prod.fst).headD 0)) ≤ p.1) &&
          decide (p.1 < (if intIdx then
              ((roundHalfEven (e.getD ((pts.map Prod.fst).getLastD 0)) :
                ℤ) : ℚ)
            else e.getD ((pts.map Prod.fst).getLastD 0)))) ∧
    (sliceTime tz pts a b = .ok r →
      r = pts.filter fun p =>
        (a.all fun x => decide (x.wall ≤ p.1)) &&
        (b.all fun x => decide (p.1 ≤ x.wall))) ∧
    (sliceTime tz pts none none = .ok pts) := by
  refine ⟨?_, ?_, ?_⟩
  · intro hsort
    simp only [sliceNum]
    exact sliceNumCore_filter _ _ pts hsort
  · intro h
    unfold sliceTime at h
    rcases ha : toSameTz tz a with msg | a'
    · rw [ha] at h
      simp [exceptErrBind] at h
    · rw [ha] at h
      rcases hb : toSameTz tz b with msg | b'
      · rw [hb] at h
        simp [exceptOkBind, exceptErrBind] at h
      · rw [hb] at h
        simp only [exceptOkBind] at h
        have hr := ((Except.ok.injEq _ _).mp h)
        rw [← hr]
        have hfa : (fun p : ℚ × α =>
            (a'.all fun x => decide (x.wall ≤ p.1)) &&
            (b'.all fun x => decide (p.1 ≤ x.wall))) =
            (fun p : ℚ × α =>
            (a.all fun x => decide (x.wall ≤ p.1)) &&
            (b.all fun x => decide (p.1 ≤ x.wall))) := by
          funext p
          rw [← optionAll_wall a' fun w => decide (w ≤ p.1),
            ← optionAll_wall a fun w => decide (w ≤ p.1),
            toSameTz_wall ha,
            ← optionAll_wall b' fun w => decide (p.1 ≤ w),
            ← optionAll_wall b fun w => decide (p.1 ≤ w),
            toSameTz_wall hb]
        rw [hfa]
  · simp [sliceTime, toSameTz, exceptOkBind]

theorem slice_bounds_characterization_witness :
    ((([((0 : ℚ), Flt.val 10), (1, Flt.val 11),
        (2, Flt.val 12)].map Prod.fst).Pairwise (· ≤ ·)) ∧
    (sliceNum false
        [((0 : ℚ), Flt.val 10), (1, Flt.val 11), (2, Flt.val 12)]
        (some 0) (some 2) =
      [((0 : ℚ), Flt.val 10), (1, Flt.val 11), (2, Flt.val 12)].filter
        fun p =>
          decide ((if false then
              ((roundHalfEven ((some (0 : ℚ)).getD
                (([((0 : ℚ), Flt.val 10), (1, Flt.val 11),
                  (2, Flt.val 12)].map Prod.fst).headD 0)) : ℤ) : ℚ)
            else (some (0 : ℚ)).getD
              (([((0 : ℚ), Flt.val 10), (1, Flt.val 11),
                (2, Flt.val 12)].map Prod.fst).headD 0)) ≤ p.1) &&
          decide (p.1 < (if false then
              ((roundHalfEven ((some (2 : ℚ)).getD
                (([((0 : ℚ), Flt.val 10), (1, Flt.val 11),
                  (2, Flt.val 12)].map Prod.fst).getLastD 0)) : ℤ) : ℚ)
            else (some (2 : ℚ)).getD
              (([((0 : ℚ), Flt.val 10), (1, Flt.val 11),
                (2, Flt.val 12)].map Prod.fst).getLastD 0)))) ∧
    (sliceTime (α := Flt) none
        [((0 : ℚ), Flt.val 10), (1, Flt.val 11), (2, Flt.val 12)]
        none none =
      .ok [((0 : ℚ), Flt.val 10), (1, Flt.val 11), (2, Flt.val 12)])) :=
  ⟨by decide,
    (slice_bounds_characterization false
      [((0 : ℚ), Flt.val 10), (1, Flt.val 11), (2, Flt.val 12)]
      (some 0) (some 2) none none none []).1 (by decide),
    (slice_bounds_characterization false
      [((0 : ℚ), Flt.val 10), (1, Flt.val 11), (2, Flt.val 12)]
      (some 0) (some 2) none none none []).2.2⟩

/-! ## C7 -/

/-- Success-case characterization of the per-trace loop: the result has
the same length and each output trace is `f` of the input trace. -/
theorem updateTraces_ok {f : Trace → Except String Trace} :
    ∀ {l res}, updateTraces f l = .ok res →
      res.length = l.length ∧
      ∀ (i : ℕ) a, l[i]? = some a →
        ∃ b, res[i]? = some b ∧ f a = .ok b := by
  intro l
  induction l with
  | nil =>
    intro res h
    simp only [updateTraces] at h
    rw [← (Except.ok.injEq _ _).mp h]
    exact ⟨rfl, fun i a hia => by simp at hia⟩
  | cons t ts ih =>
    intro res h
    unfold updateTraces at h
    rcases hf : f t with msg | t'
    · rw [hf] at h
      simp [exceptErrBind] at h
    · rw [hf] at h
      rcases hr : updateTraces f ts with msg | ts'
      · rw [hr] at h
        simp [exceptOkBind, exceptErrBind] at h
      · rw [hr] at h
        simp only [exceptOkBind] at h
        rw [← (Except.ok.injEq _ _).mp h]
        obtain ⟨hlen, hget⟩ := ih hr
        refine ⟨by simp [hlen], ?_⟩
        intro i a hia
        cases i with
        | zero =>
          simp only [List.getElem?_cons_zero] at hia ⊢
          exact ⟨t', rfl, by rw [← (Option.some.injEq _ _).mp hia]; exact hf⟩
        | succ n =>
          simp only [List.getElem?_cons_succ] at hia ⊢
          exact hget n a hia

/-- C7: a batch synchronization with an x-axis filter applies the
per-trace synchronizer to exactly the traces whose y-axis anchor belongs
to that x-axis's subplot group and leaves every other trace bit-for-bit
unchanged; with no filter, the synchronizer is applied to every trace —
and on a trace without an entry the synchronizer is the identity, so
exactly the in-scope traces with an entry are re-sliced and mutated. -/
theorem figure_update_axis_filter_scoping (pre suf : Str) (store : Store)
    (layout : Layout) (data : List Trace) (s e : Option Bnd) (f : XKey)
    (res res2 : List Trace) (t : Trace) :
    (checkUpdateFigureDict pre suf store layout data s e (some f) =
        .ok res →
      res.length = data.length ∧
      ∀ (i : ℕ) a, data[i]? = some a →
        (skipTrace layout f a = true → res[i]? = some a) ∧
        (skipTrace layout f a = false →
          ∃ b, res[i]? = some b ∧
            checkUpdateTraceData pre suf store a s e = .ok b)) ∧
    (checkUpdateFigureDict pre suf store layout data s e none = .ok res2 →
      res2.length = data.length ∧
      ∀ (i : ℕ) a, data[i]? = some a →
        ∃ b, res2[i]? = some b ∧
          checkUpdateTraceData pre suf store a s e = .ok b) ∧
    (queryHfData store t = none →
      checkUpdateTraceData pre suf store t s e = .ok t) := by
  refine ⟨?_, ?_, fun hq => checkUpdate_no_entry pre suf store t s e hq⟩
  · intro h
    obtain ⟨hlen, hget⟩ := updateTraces_ok h
    refine ⟨hlen, ?_⟩
    intro i a hia
    obtain ⟨b, hb, hfa⟩ := hget i a hia
    replace hfa : (if skipTrace layout f a then Except.ok a
        else checkUpdateTraceData pre suf store a s e) = .ok b := hfa
    constructor
    · intro hskip
      rw [if_pos hskip] at hfa
      rw [hb, ← (Except.ok.injEq _ _).mp hfa]
    · intro hskip
      rw [if_neg (by simp [hskip])] at hfa
      exact ⟨b, hb, hfa⟩
  · intro h
    obtain ⟨hlen, hget⟩ := updateTraces_ok h
    exact ⟨hlen, fun i a hia => hget i a hia⟩

/-- Layout of a two-row figure: `yaxis` anchored to `x`(1), `yaxis2`
anchored to `x2`. -/
def wLayout : Layout := fun yk =>
  match yk with
  | some 1 => some (some 1)
  | some 2 => some (some 2)
  | _ => none

/-- A trace on subplot group 1 with a stored entry. -/
def wTg1 : Trace :=
  { type_ := "scatter", uid := some "u1", name := some ['s'],
    x := ⟨linMeta, [5]⟩, y := ⟨.float64, [Flt.val 9]⟩, text := .none,
    hovertext := .none, yaxis := some (some 1) }

/-- A trace on subplot group 2. -/
def wTg2 : Trace :=
  { type_ := "scatter", uid := some "u2", name := some ['t'],
    x := ⟨linMeta, [7]⟩, y := ⟨.float64, [Flt.val 3]⟩, text := .none,
    hovertext := .none, yaxis := some (some 2) }

def wStore7 : Store := [("u1", mkLinEntry [((0 : ℚ), Flt.val 1)] 5)]

/-- The figure after a group-1 view change: trace 1 re-sliced, trace 2
bit-for-bit unchanged. -/
def wRes7 : List Trace :=
  [{ wTg1 with x := ⟨linMeta, []⟩, y := ⟨.float64, []⟩ }, wTg2]

theorem figure_update_axis_filter_scoping_witness :
    (wRes7[1]? = some wTg2) ∧
    (∃ b, wRes7[0]? = some b ∧
      checkUpdateTraceData [] [] wStore7 wTg1 none none = .ok b) := by
  have H := (figure_update_axis_filter_scoping [] [] wStore7 wLayout
    [wTg1, wTg2] none none (some 1) wRes7 [] wTg1).1 (by decide)
  exact ⟨(H.2 1 wTg2 (by decide)).1 (by decide),
    (H.2 0 wTg1 (by decide)).2 (by decide)⟩
